import Mathlib

/-!
Verification development for the trivia-game server (`src/app.ts`, second
revision, together with `src/service/service.ts`).

The round state machine, its timers and handlers are shallowly embedded as
pure Lean functions over an explicit `GameState`, an explicit user-ledger
`DB`, and an explicit trace of `Effect`s (ledger calls and socket emits).
Wall-clock instants are naturals (milliseconds); `Date.now()` values are
passed to each handler as a `now` parameter.  JavaScript string operations
`trim` / `toLowerCase` are embedded over `List Char` (ASCII semantics).
Randomness (`Math.random()`) is passed in as an explicit rational sample.
-/

namespace Trivia

/-- Text values (JS strings) are modelled as lists of characters. -/
abbrev Str := List Char

/-- Whitespace predicate used by `String.prototype.trim` (ASCII fragment). -/
def isWS (c : Char) : Bool :=
  c = ' ' || c = '\t' || c = '\n' || c = '\r' || c = '\x0b' || c = '\x0c'

/-- ASCII embedding of the per-character action of `String.prototype.toLowerCase`. -/
def lowerChar (c : Char) : Char :=
  match c with
  | 'A' => 'a' | 'B' => 'b' | 'C' => 'c' | 'D' => 'd' | 'E' => 'e' | 'F' => 'f'
  | 'G' => 'g' | 'H' => 'h' | 'I' => 'i' | 'J' => 'j' | 'K' => 'k' | 'L' => 'l'
  | 'M' => 'm' | 'N' => 'n' | 'O' => 'o' | 'P' => 'p' | 'Q' => 'q' | 'R' => 'r'
  | 'S' => 's' | 'T' => 't' | 'U' => 'u' | 'V' => 'v' | 'W' => 'w' | 'X' => 'x'
  | 'Y' => 'y' | 'Z' => 'z'
  | c => c

/-- Embedding of `String.prototype.toLowerCase` (ASCII fragment). -/
def jsLower (s : Str) : Str := s.map lowerChar

/-- Drop leading whitespace. -/
def leftTrim (s : Str) : Str := s.dropWhile isWS

/-- Drop trailing whitespace. -/
def rightTrim (s : Str) : Str := (s.reverse.dropWhile isWS).reverse

/-- Embedding of `String.prototype.trim`. -/
def jsTrim (s : Str) : Str := rightTrim (leftTrim s)

/-- The spec's normalisation of an answer text: trimmed and case-folded. -/
def normText (s : Str) : Str := jsLower (jsTrim s)

/-! ### Supporting lemmas about `jsTrim` and `jsLower` -/

theorem isWS_lowerChar (c : Char) : isWS (lowerChar c) = isWS c := by
  unfold lowerChar
  split <;> rfl

theorem dropWhile_idem (p : α → Bool) (l : List α) :
    (l.dropWhile p).dropWhile p = l.dropWhile p := by
  induction l with
  | nil => rfl
  | cons a l ih =>
    by_cases h : p a = true
    · simpa [List.dropWhile_cons, h] using ih
    · simp [List.dropWhile_cons, h]

theorem dropWhile_suffix' (p : α → Bool) (l : List α) : l.dropWhile p <:+ l := by
  induction l with
  | nil => exact List.nil_suffix
  | cons a l ih =>
    by_cases h : p a = true
    · simpa [List.dropWhile_cons, h] using ih.trans (List.suffix_cons a l)
    · simp [List.dropWhile_cons, h]

theorem head_not_ws_of_leftTrimmed {p : α → Bool} {a : α} {t : List α}
    (h : (a :: t).dropWhile p = a :: t) : p a = false := by
  by_contra hp
  have hp' : p a = true := by
    cases hpa : p a
    · exact absurd hpa hp
    · rfl
  rw [List.dropWhile_cons_of_pos hp'] at h
  have hle := (List.dropWhile_sublist (l := t) p).length_le
  have : (t.dropWhile p).length = t.length + 1 := by
    rw [h]; simp
  omega

/-- A prefix of a left-trimmed list is left-trimmed. -/
theorem dropWhile_prefix_of_dropWhile_eq {p : α → Bool} {l m : List α}
    (h : l.dropWhile p = l) (hm : m <+: l) : m.dropWhile p = m := by
  cases l with
  | nil =>
    have : m = [] := List.prefix_nil.mp hm
    simp [this]
  | cons a t =>
    cases m with
    | nil => rfl
    | cons b m' =>
      have hb : b = a := by
        rcases hm with ⟨r, hr⟩
        exact (List.cons.injEq b (m' ++ r) a t ▸ congrArg id hr).1
      have ha : p a = false := head_not_ws_of_leftTrimmed h
      rw [hb, List.dropWhile_cons_of_neg (by simp [ha])]

theorem rightTrim_isPrefixOfSelf (s : Str) : rightTrim s <+: s := by
  unfold rightTrim
  have h := dropWhile_suffix' isWS s.reverse
  have := List.reverse_prefix.mpr h
  simpa using this

/-- Right-trimming preserves the left-trimmed property. -/
theorem leftTrim_rightTrim_of_leftTrimmed {s : Str} (h : leftTrim s = s) :
    leftTrim (rightTrim s) = rightTrim s :=
  dropWhile_prefix_of_dropWhile_eq h (rightTrim_isPrefixOfSelf s)

theorem leftTrim_leftTrim (s : Str) : leftTrim (leftTrim s) = leftTrim s :=
  dropWhile_idem isWS s

theorem rightTrim_rightTrim (s : Str) : rightTrim (rightTrim s) = rightTrim s := by
  unfold rightTrim
  simp [dropWhile_idem]

theorem jsTrim_idem (s : Str) : jsTrim (jsTrim s) = jsTrim s := by
  unfold jsTrim
  rw [leftTrim_rightTrim_of_leftTrimmed (leftTrim_leftTrim s), rightTrim_rightTrim]

theorem dropWhile_map_lowerChar (s : Str) :
    (s.map lowerChar).dropWhile isWS = (s.dropWhile isWS).map lowerChar := by
  induction s with
  | nil => rfl
  | cons a t ih =>
    by_cases h : isWS a = true
    · have h' : isWS (lowerChar a) = true := by rw [isWS_lowerChar]; exact h
      simp [List.dropWhile_cons, h, h', ih]
    · have hf : isWS a = false := by
        cases hx : isWS a
        · rfl
        · exact absurd hx h
      have h' : isWS (lowerChar a) = false := by rw [isWS_lowerChar]; exact hf
      simp [List.dropWhile_cons, hf, h']

theorem jsLower_leftTrim (s : Str) : jsLower (leftTrim s) = leftTrim (jsLower s) := by
  unfold jsLower leftTrim
  rw [dropWhile_map_lowerChar]

theorem jsLower_rightTrim (s : Str) : jsLower (rightTrim s) = rightTrim (jsLower s) := by
  unfold jsLower rightTrim
  rw [List.map_reverse, ← dropWhile_map_lowerChar, List.map_reverse]

/-- `toLowerCase` commutes with `trim`. -/
theorem jsLower_jsTrim (s : Str) : jsLower (jsTrim s) = jsTrim (jsLower s) := by
  unfold jsTrim
  rw [jsLower_rightTrim, jsLower_leftTrim]

/-- The comparison performed by the code (`answer.trim().toLowerCase() ===
canonical.toLowerCase()`) implies the spec's normalised equality. -/
theorem normText_eq_of_code_eq {a b : Str} (h : jsLower (jsTrim a) = jsLower b) :
    normText a = normText b := by
  unfold normText
  rw [jsLower_jsTrim, jsLower_jsTrim, ← h, jsLower_jsTrim, jsTrim_idem, ← jsLower_jsTrim]

/-! ### Data model

Mirrors the mutable module-level state of `src/app.ts` and the user ledger
behind `src/service/service.ts`. -/

/-- An entry of `onlineUsers` / `triviaUsers`. -/
structure OnlineUser where
  userId : String
  username : String
  exp : Nat
  socketId : String
deriving DecidableEq, Repr

/-- The fields of a question document used by the game flow. -/
structure Question where
  qid : String
  question : Str
  answer : Str
  category : Str
  difficulty : Str
  reward_amount : Int
deriving DecidableEq, Repr

/-- A user document of the ledger (`GameUserRepository`), restricted to the
fields the game flow reads or writes. -/
structure UserDoc where
  uid : String
  tokens : Int
  balance : Int
  exp : Nat
deriving DecidableEq, Repr

abbrev DB := List UserDoc

/-- `gameService.useToken`: `findOneAndUpdate {_id, tokens ≥ n} {$inc: {tokens: -n}} {new: true}`. -/
def dbUseToken (db : DB) (uid : String) (n : Int) : Option UserDoc × DB :=
  match db.find? (fun u => u.uid == uid && n ≤ u.tokens) with
  | none => (none, db)
  | some u =>
    let u' : UserDoc := { u with tokens := u.tokens - n }
    (some u', db.map (fun v => if v.uid == uid then u' else v))

/-- `gameService.addBalance`: `findOneAndUpdate {_id} {$inc: {balance: amount}} {new: true}`. -/
def dbAddBalance (db : DB) (uid : String) (amount : Int) : Option UserDoc × DB :=
  match db.find? (fun u => u.uid == uid) with
  | none => (none, db)
  | some u =>
    let u' : UserDoc := { u with balance := u.balance + amount }
    (some u', db.map (fun v => if v.uid == uid then u' else v))

/-- `gameService.updateExp`: `findByIdAndUpdate {exp} {new: true}`, returning the
new `exp`; `none` models the thrown "User not found". -/
def dbSetExp (db : DB) (uid : String) (e : Nat) : Option Nat × DB :=
  match db.find? (fun u => u.uid == uid) with
  | none => (none, db)
  | some u =>
    let u' : UserDoc := { u with exp := e }
    (some e, db.map (fun v => if v.uid == uid then u' else v))

/-- Reward payload assembled in `emitResults` (`winnerInfo`). -/
structure WinnerInfo where
  userId : String
  username : String
  reward : Int
  exp : Nat
deriving DecidableEq, Repr

/-- Server-originated events (socket emissions), restricted to the payload
fields the claims mention. -/
inductive Event where
  | playersUpdate
  | roomsList
  | roomsUpdate
  | roomJoined (room : String)
  | roomLeft (room : String)
  | quizQuestion (round : Nat) (qid : String) (timeLeft : Nat)
  | quizWaiting (timeLeft : Nat)
  | quizWinner (w : WinnerInfo) (round : Nat) (correctAnswer : Str)
  | quizEnd (round : Nat) (correctAnswer : Str) (message : String) (winner : Option WinnerInfo)
  | quizEndNoQuestions
  | quizStopped
  | quizError (message : String)
  | quizUserUpdate (tokens balance : Int) (exp : Nat)
deriving DecidableEq, Repr

/-- Observable actions of a handler: ledger-service invocations, in call
order, interleaved with socket emissions. -/
inductive Effect where
  | useTokenCall (uid : String) (n : Int)
  | creditBalance (uid : String) (amount : Int)
  | setExp (uid : String) (newExp : Nat)
  | markAnswered (qid : String) (uid : String)
  | emitTo (socketId : String) (ev : Event)
  | emitAll (ev : Event)
deriving DecidableEq, Repr

/-- The module-level mutable state of `src/app.ts` (second revision), with
each `setTimeout` handle abstracted to a pending flag. -/
structure GameState where
  onlineUsers : List OnlineUser
  triviaUsers : List OnlineUser
  currentRound : Nat
  currentQuestion : Option Question
  winnerDeclared : Bool
  questionStartTime : Option Nat
  waitStartTime : Option Nat
  roundTimeout : Bool
  waitTimeout : Bool
  resultTimeout : Bool
  startingQuestion : Bool
  submissions : List (String × Str)
  firstCorrectUser : Option (String × String)
  disconnectPending : List String
deriving DecidableEq, Repr

/-- State at module load. -/
def initState : GameState :=
  { onlineUsers := [], triviaUsers := [], currentRound := 0, currentQuestion := none,
    winnerDeclared := false, questionStartTime := none, waitStartTime := none,
    roundTimeout := false, waitTimeout := false, resultTimeout := false,
    startingQuestion := false, submissions := [], firstCorrectUser := none,
    disconnectPending := [] }

def QUESTION_DURATION : Nat := 30
def WAIT_DURATION : Nat := 30
def RESULT_DELAY : Nat := 15
def RECONNECT_GRACE_MS : Nat := 10000

/-- The hardcoded privileged account id (`SPECIAL_USER_ID` in `app.ts`). -/
def SPECIAL_USER_ID : String := "68cb80995ad48b483484c73e"

/-- The forced-winner identity set realised by the source: the code consults
exactly the one constant `SPECIAL_USER_ID` when overriding winner selection. -/
def forcedWinnerIds : List String := [SPECIAL_USER_ID]

/-- `Math.floor((now - start) / 1000)` on natural milliseconds. -/
def elapsedSec (now t0 : Nat) : Nat := (now - t0) / 1000

/-- `submissions[userId]` (reading an own-property of the plain object). -/
def getSubmission (subs : List (String × Str)) (uid : String) : Option Str :=
  (subs.find? (fun p => p.1 == uid)).map (·.2)

/-- `submissions[userId] = v`. -/
def setSubmission (subs : List (String × Str)) (uid : String) (v : Str) :
    List (String × Str) :=
  if subs.any (fun p => p.1 == uid) then
    subs.map (fun p => if p.1 == uid then (uid, v) else p)
  else
    subs ++ [(uid, v)]

/-- Result of one handler invocation. -/
structure Out where
  state : GameState
  db : DB
  effects : List Effect
deriving DecidableEq, Repr

/-! ### The `quiz:answer` handler (app.ts lines 553–600, second revision)

The wire payload of `submitAnswer` carries a round number (spec §6), but the
handler destructures only `userId`, `username` and `answer`; the payload is
embedded whole so that theorems can quantify over the round field the code
never reads. -/

structure AnswerPayload where
  userId : String
  username : String
  round : Nat
  answer : Str
deriving DecidableEq, Repr

def handleAnswer (s : GameState) (db : DB) (p : AnswerPayload) (sockId : String)
    (now : Nat) : Out :=
  if (s.triviaUsers.find? (fun u => u.userId == p.userId)).isNone then ⟨s, db, []⟩
  else
    match s.currentQuestion, s.questionStartTime with
    | some q, some t0 =>
      if QUESTION_DURATION ≤ elapsedSec now t0 then ⟨s, db, []⟩
      else
        let (res, db1) := dbUseToken db p.userId 1
        let effs0 := [Effect.useTokenCall p.userId 1]
        match res with
        | none =>
          ⟨s, db1, effs0 ++ [.emitTo sockId (.quizError "User not found or insufficient tokens")]⟩
        | some u =>
          let effs1 := effs0 ++ [Effect.emitTo sockId (.quizUserUpdate u.tokens u.balance u.exp)]
          let s1 := { s with submissions := setSubmission s.submissions p.userId (jsTrim p.answer) }
          if q.answer ≠ [] && jsLower (jsTrim p.answer) == jsLower q.answer
              && s1.firstCorrectUser.isNone then
            let s2 := { s1 with firstCorrectUser := some (p.userId, p.username) }
            let s3 := if s2.resultTimeout then s2 else { s2 with resultTimeout := true }
            ⟨s3, db1, effs1⟩
          else
            ⟨s1, db1, effs1⟩
    | _, _ => ⟨s, db, []⟩

/-! ### Waiting period and round resolution (app.ts lines 679–861) -/

/-- `startWaitingPeriod(emitToAll)`: cancels any pending wait timer, records
the wait start instant, optionally notifies the trivia room, and arms the
wait timer. -/
def startWaitingPeriod (s : GameState) (now : Nat) (emitToAll : Bool) :
    GameState × List Effect :=
  let effs := if emitToAll then
      s.triviaUsers.map (fun u => Effect.emitTo u.socketId (.quizWaiting WAIT_DURATION))
    else []
  ({ s with waitStartTime := some now, waitTimeout := true }, effs)

def MSG_NO_RESPONSE : String := "⏰ No response submitted."
def MSG_NOT_FASTEST : String := "✅ Correct, but not the fastest!"
def MSG_WRONG : String := "❌ Wrong answer!"

/-- One iteration of the outcome loop of `emitResults` (lines 781–817): the
events emitted to participant `u`, given the recorded submissions, the
special user and first-correct-user snapshots, and the winner payload. -/
def loopEffect (round : Nat) (ans : Str) (winfo : Option WinnerInfo)
    (specialUid fcUid : Option String) (subs : List (String × Str))
    (u : OnlineUser) : List Effect :=
  match getSubmission subs u.userId with
  | none => [.emitTo u.socketId (.quizEnd round ans MSG_NO_RESPONSE winfo)]
  | some t =>
    if t = [] then [.emitTo u.socketId (.quizEnd round ans MSG_NO_RESPONSE winfo)]
    else if jsLower (jsTrim t) == jsLower ans then
      if specialUid.any (· == u.userId) || fcUid.any (· == u.userId) then []
      else [.emitTo u.socketId (.quizEnd round ans MSG_NOT_FASTEST winfo)]
    else [.emitTo u.socketId (.quizEnd round ans MSG_WRONG winfo)]

/-- The reward sequence of `emitResults` for the selected winner `w`:
credit the reward, set experience to the fresh document's `exp + 1`, mark
the question answered, emit the winner event.  The `error` cases model the
thrown `TypeError` / "User not found" aborting the async function with the
ledger calls made so far. -/
def doReward (s : GameState) (db : DB) (w : OnlineUser) (q : Question) :
    Except (DB × List Effect) (GameState × DB × List Effect × WinnerInfo) :=
  match dbAddBalance db w.userId q.reward_amount with
  | (none, db1) =>
    .error (db1, [Effect.creditBalance w.userId q.reward_amount])
  | (some ruDoc, db1) =>
    match dbSetExp db1 w.userId (ruDoc.exp + 1) with
    | (none, db2) =>
      .error (db2, [Effect.creditBalance w.userId q.reward_amount,
                    Effect.setExp w.userId (ruDoc.exp + 1)])
    | (some _, db2) =>
      .ok ({ s with
          triviaUsers := s.triviaUsers.map (fun u =>
            if u.userId == w.userId then { u with exp := ruDoc.exp + 1 } else u),
          onlineUsers := s.onlineUsers.map (fun u =>
            if u.userId == w.userId then { u with exp := ruDoc.exp + 1 } else u) },
        db2,
        [Effect.creditBalance w.userId q.reward_amount,
         Effect.setExp w.userId (ruDoc.exp + 1),
         Effect.markAnswered q.qid w.userId,
         Effect.emitTo w.socketId (.quizWinner
           ⟨w.userId, w.username, q.reward_amount, ruDoc.exp + 1⟩ s.currentRound q.answer)],
        ⟨w.userId, w.username, q.reward_amount, ruDoc.exp + 1⟩)

/-- Result of `emitResults`, additionally exposing the `winnerInfo` local. -/
structure EROut where
  state : GameState
  db : DB
  effects : List Effect
  winnerInfo : Option WinnerInfo
deriving DecidableEq, Repr

/-- The round-scoped cleanup at the end of `emitResults` (lines 821–829). -/
def cleanupState (s : GameState) : GameState :=
  { s with roundTimeout := false, resultTimeout := false,
           currentQuestion := none, submissions := [],
           firstCorrectUser := none, winnerDeclared := true }

/-- Round cleanup and next transition (lines 819–838). -/
def finishRound (s : GameState) (db : DB) (now : Nat) (effs : List Effect)
    (winfo : Option WinnerInfo) : EROut :=
  if 2 ≤ (cleanupState s).triviaUsers.length then
    ⟨(startWaitingPeriod (cleanupState s) now false).1, db,
      effs ++ (startWaitingPeriod (cleanupState s) now false).2, winfo⟩
  else
    ⟨cleanupState s, db, effs ++ [.emitAll .quizStopped], winfo⟩

/-- The tail of `emitResults` after the winner branch: the outcome loop over
the (possibly exp-refreshed) trivia users, the presence broadcast, then the
cleanup and next transition.  `s0` is the pre-branch state whose round
number, first-correct snapshot and submission map the loop reads. -/
def emitTail (s0 : GameState) (q : Question) (specialUid : Option String) (now : Nat)
    (s1 : GameState) (db1 : DB) (effs1 : List Effect)
    (winfo : Option WinnerInfo) : EROut :=
  finishRound s1 db1 now
    (effs1 ++ s1.triviaUsers.flatMap
        (loopEffect s0.currentRound q.answer winfo specialUid
          (s0.firstCorrectUser.map (·.1)) s0.submissions)
      ++ [.emitAll .playersUpdate]) winfo

/-- Dispatch on the outcome of the reward sequence: the `error` case models
the thrown exception aborting `emitResults` before any cleanup. -/
def emitBranch (s : GameState) (db : DB) (now : Nat) (q : Question)
    (specialUid : Option String)
    (r : Except (DB × List Effect) (GameState × DB × List Effect × WinnerInfo)) : EROut :=
  match r with
  | .error (db', effs) => ⟨s, db', effs, none⟩
  | .ok (s1, db1, effs1, w) => emitTail s q specialUid now s1 db1 effs1 (some w)

/-- `emitResults` (lines 679–838). -/
def emitResults (s : GameState) (db : DB) (now : Nat) : EROut :=
  match s.currentQuestion with
  | none => ⟨s, db, [], none⟩
  | some q =>
    if q.answer = [] then ⟨s, db, [], none⟩
    else
      match s.triviaUsers.find? (fun u => u.userId == SPECIAL_USER_ID) with
      | some su => emitBranch s db now q (some su.userId) (doReward s db su q)
      | none =>
        match s.firstCorrectUser with
        | some fc =>
          match s.triviaUsers.find? (fun u => u.userId == fc.1) with
          | some wu => emitBranch s db now q none (doReward s db wu q)
          | none => emitTail s q none now s db [] none
        | none => emitTail s q none now s db [] none

/-- The `roundTimeout` callback armed in `startNewQuestion` (lines 946–952);
a fire only happens while the timer is pending. -/
def roundFire (s : GameState) (db : DB) (now : Nat) : Out :=
  if s.roundTimeout then
    let s1 := { s with roundTimeout := false }
    if !s1.winnerDeclared && s1.currentQuestion.isSome then
      let r := emitResults s1 db now
      ⟨r.state, r.db, r.effects⟩
    else ⟨s1, db, []⟩
  else ⟨s, db, []⟩

/-- The `resultTimeout` callback (armed at lines 588–592 and 936–940). -/
def resultFire (s : GameState) (db : DB) (now : Nat) : Out :=
  if s.resultTimeout then
    let s1 := { s with resultTimeout := false }
    let r := emitResults s1 db now
    ⟨r.state, r.db, r.effects⟩
  else ⟨s, db, []⟩

/-! ### Starting a question (app.ts lines 863–964) -/

/-- `startNewQuestion`.  `qOpt` is the outcome of the
`gameService.getAndUpdateQuestion()` round trip, and `rand` the
`Math.random()` sample drawn in the easy-difficulty branch. -/
def startNewQuestion (s : GameState) (db : DB) (now : Nat) (qOpt : Option Question)
    (rand : ℚ) : Out :=
  if s.startingQuestion then ⟨s, db, []⟩
  else if s.triviaUsers.length < 2 then
    ⟨s, db, s.triviaUsers.map (fun u => .emitTo u.socketId .quizStopped)⟩
  else
    match qOpt with
    | none =>
      ⟨s, db, s.triviaUsers.map (fun u => .emitTo u.socketId .quizEndNoQuestions)⟩
    | some q =>
      let s1 := { s with winnerDeclared := false, currentRound := s.currentRound + 1,
                         currentQuestion := some q, questionStartTime := some now,
                         submissions := [], firstCorrectUser := none }
      let effs := s1.triviaUsers.map (fun u =>
        Effect.emitTo u.socketId (.quizQuestion s1.currentRound q.qid QUESTION_DURATION))
      let specialUser := s1.triviaUsers.find? (fun u => u.userId == SPECIAL_USER_ID)
      let s2 :=
        match specialUser with
        | some su =>
          let difficulty := jsLower q.difficulty
          let shouldAnswer : Bool :=
            difficulty == "hard".toList || difficulty == "medium".toList
              || (difficulty == "easy".toList && decide (rand < 3 / 10))
          if shouldAnswer then
            let sA := { s1 with firstCorrectUser := some (su.userId, su.username) }
            if sA.resultTimeout then sA else { sA with resultTimeout := true }
          else s1
        | none => s1
      ⟨{ s2 with roundTimeout := true }, db, effs⟩

/-- The `waitTimeout` callback armed in `startWaitingPeriod` (lines 853–860). -/
def waitFire (s : GameState) (db : DB) (now : Nat) (qOpt : Option Question)
    (rand : ℚ) : Out :=
  if s.waitTimeout then
    let s1 := { s with waitTimeout := false, waitStartTime := none }
    startNewQuestion s1 db now qOpt rand
  else ⟨s, db, []⟩

/-! ### Suspension points of the two `async` flow functions

`startNewQuestion` and `emitResults` are `async`: every awaited ledger call
inside them is a suspension point at which other handlers and timer
callbacks may run (spec §5).  The functions above model a run with nothing
interleaved at those awaits; the phase functions below split each of the
two functions at its first await, so that interleavings at the suspension
point can be realised by running other handlers between the two phases. -/

/-- `startNewQuestion` up to its `await gameService.getAndUpdateQuestion()`
(lines 864–883): the re-entrancy check, the `startingQuestion` flag and the
player-count check all execute before the await (the under-populated branch
resets the flag and returns, so it leaves the state as it was).  The final
boolean is true when the function is now suspended at the
question-reservation await, with a `startNewQuestionResume` pending. -/
def startNewQuestionEnter (s : GameState) : GameState × List Effect × Bool :=
  if s.startingQuestion then (s, [], false)
  else if s.triviaUsers.length < 2 then
    (s, s.triviaUsers.map (fun u => .emitTo u.socketId .quizStopped), false)
  else ({ s with startingQuestion := true }, [], true)

/-- `startNewQuestion` from the return of the question-reservation await to
the end (lines 884–963), applied to the state as it stands at resumption;
the `finally` clears the `startingQuestion` flag. -/
def startNewQuestionResume (s : GameState) (db : DB) (now : Nat)
    (qOpt : Option Question) (rand : ℚ) : Out :=
  match qOpt with
  | none =>
    ⟨{ s with startingQuestion := false }, db,
      s.triviaUsers.map (fun u => .emitTo u.socketId .quizEndNoQuestions)⟩
  | some q =>
    let s1 := { s with winnerDeclared := false, currentRound := s.currentRound + 1,
                       currentQuestion := some q, questionStartTime := some now,
                       submissions := [], firstCorrectUser := none }
    let effs := s1.triviaUsers.map (fun u =>
      Effect.emitTo u.socketId (.quizQuestion s1.currentRound q.qid QUESTION_DURATION))
    let specialUser := s1.triviaUsers.find? (fun u => u.userId == SPECIAL_USER_ID)
    let s2 :=
      match specialUser with
      | some su =>
        let difficulty := jsLower q.difficulty
        let shouldAnswer : Bool :=
          difficulty == "hard".toList || difficulty == "medium".toList
            || (difficulty == "easy".toList && decide (rand < 3 / 10))
        if shouldAnswer then
          let sA := { s1 with firstCorrectUser := some (su.userId, su.username) }
          if sA.resultTimeout then sA else { sA with resultTimeout := true }
        else s1
      | none => s1
    ⟨{ s2 with roundTimeout := true, startingQuestion := false }, db, effs⟩

/-- `emitResults` up to its first suspension point.  The two reward branches
suspend at `await gameService.addBalance(...)` (lines 696 and 741): the
balance credit has then been issued against the ledger, but none of the
function's state updates or socket emissions has happened yet; the returned
user is the winner whose reward sequence is in flight.  All other paths
(no question, empty answer, or no winner found) contain no await at all, so
they run to completion synchronously and nothing is left pending. -/
def emitResultsEnter (s : GameState) (db : DB) (now : Nat) :
    EROut × Option OnlineUser :=
  match s.currentQuestion with
  | none => (⟨s, db, [], none⟩, none)
  | some q =>
    if q.answer = [] then (⟨s, db, [], none⟩, none)
    else
      match s.triviaUsers.find? (fun u => u.userId == SPECIAL_USER_ID) with
      | some su =>
        (⟨s, (dbAddBalance db su.userId q.reward_amount).2,
          [Effect.creditBalance su.userId q.reward_amount], none⟩, some su)
      | none =>
        match s.firstCorrectUser with
        | some fc =>
          match s.triviaUsers.find? (fun u => u.userId == fc.1) with
          | some wu =>
            (⟨s, (dbAddBalance db wu.userId q.reward_amount).2,
              [Effect.creditBalance wu.userId q.reward_amount], none⟩, some wu)
          | none => (emitTail s q none now s db [] none, none)
        | none => (emitTail s q none now s db [] none, none)

/-- With nothing interleaved between the two phases, the phase pair composes
to the serialized `startNewQuestion`. -/
theorem startNewQuestion_phases (s : GameState) (db : DB) (now : Nat)
    (qOpt : Option Question) (rand : ℚ)
    (hstart : s.startingQuestion = false) (hlen : 2 ≤ s.triviaUsers.length) :
    startNewQuestionEnter s = ({ s with startingQuestion := true }, [], true) ∧
    startNewQuestion s db now qOpt rand
      = startNewQuestionResume { s with startingQuestion := true } db now qOpt rand := by
  rcases s with ⟨o, t, cr, cq, wd, qst, wst, rt, wt, rto, sq, sub, fcu, dp⟩
  dsimp only at hstart hlen
  subst hstart
  constructor
  · unfold startNewQuestionEnter
    rw [if_neg (by simp), if_neg (by dsimp only; omega)]
  · unfold startNewQuestion startNewQuestionResume
    rw [if_neg (by simp), if_neg (by dsimp only; omega)]
    cases qOpt with
    | none => rfl
    | some q =>
      dsimp only
      cases hsp : t.find? (fun u => u.userId == SPECIAL_USER_ID) with
      | none => rfl
      | some su =>
        dsimp only
        split
        · split <;> rfl
        · rfl

/-! ### Presence handlers (app.ts lines 297–479, 602–674) -/

/-- `user:join` (lines 298–392) for a valid payload. -/
def userJoin (s : GameState) (db : DB) (uid uname sockId : String) (now : Nat) : Out :=
  let s := { s with disconnectPending := s.disconnectPending.filter (fun x => x ≠ uid) }
  let exp := ((db.find? (fun u => u.uid == uid)).map (·.exp)).getD 0
  let s :=
    if s.onlineUsers.any (fun u => u.userId == uid) then
      { s with onlineUsers := s.onlineUsers.map (fun u =>
          if u.userId == uid then { u with socketId := sockId, exp := exp } else u) }
    else
      { s with onlineUsers := s.onlineUsers ++ [⟨uid, uname, exp, sockId⟩] }
  let effs := [Effect.emitTo sockId .roomsList, Effect.emitAll .playersUpdate]
  let inTrivia := s.triviaUsers.any (fun u => u.userId == uid)
  let startCase : Out :=
    if 2 ≤ s.triviaUsers.length && !s.waitTimeout && !s.roundTimeout
        && s.currentQuestion.isNone then
      let (s', ef) := startWaitingPeriod s now true
      ⟨s', db, effs ++ ef⟩
    else ⟨s, db, effs⟩
  let waitingCase : Out :=
    if inTrivia then
      match s.waitStartTime with
      | some w0 =>
        let timeLeft := WAIT_DURATION - elapsedSec now w0
        if 0 < timeLeft then ⟨s, db, effs ++ [.emitTo sockId (.quizWaiting timeLeft)]⟩
        else startCase
      | none => startCase
    else startCase
  if inTrivia then
    match s.currentQuestion, s.questionStartTime with
    | some q, some t0 =>
      let timeLeft := max (QUESTION_DURATION - elapsedSec now t0) 0
      ⟨s, db, effs ++ [.emitTo sockId (.quizQuestion s.currentRound q.qid timeLeft)]⟩
    | _, _ => waitingCase
  else waitingCase

/-- `room:join` (lines 395–479) for the trivia room (`room = "general"`). -/
def roomJoinGeneral (s : GameState) (db : DB) (uid uname sockId : String) (now : Nat) : Out :=
  let s := { s with disconnectPending := s.disconnectPending.filter (fun x => x ≠ uid) }
  let s :=
    if s.triviaUsers.any (fun u => u.userId == uid) then
      { s with triviaUsers := s.triviaUsers.map (fun u =>
          if u.userId == uid then { u with socketId := sockId } else u) }
    else
      let exp := ((s.onlineUsers.find? (fun u => u.userId == uid)).map (·.exp)).getD 0
      { s with triviaUsers := s.triviaUsers ++ [⟨uid, uname, exp, sockId⟩] }
  let effs := [Effect.emitAll .roomsUpdate, Effect.emitTo sockId (.roomJoined "general")]
  -- CASE A: threshold crossing starts the waiting period
  let (s, effsA) :=
    if 2 ≤ s.triviaUsers.length && !s.waitTimeout && !s.roundTimeout
        && s.currentQuestion.isNone then
      startWaitingPeriod s now true
    else (s, [])
  -- CASE B: waiting already in progress, sync remaining time
  let effsB :=
    match s.waitStartTime with
    | some w0 =>
      let timeLeft := WAIT_DURATION - elapsedSec now w0
      if 0 < timeLeft then [Effect.emitTo sockId (.quizWaiting timeLeft)] else []
    | none => []
  -- CASE C: question in progress, sync question state
  let effsC :=
    match s.currentQuestion, s.questionStartTime with
    | some q, some t0 =>
      let timeLeft := max (QUESTION_DURATION - elapsedSec now t0) 0
      [Effect.emitTo sockId (.quizQuestion s.currentRound q.qid timeLeft)]
    | _, _ => []
  ⟨s, db, effs ++ effsA ++ effsB ++ effsC⟩

/-- `room:leave` (lines 603–624) for the trivia room. -/
def roomLeave (s : GameState) (db : DB) (uid sockId : String) : Out :=
  let s := { s with triviaUsers := s.triviaUsers.filter (fun u => u.userId ≠ uid) }
  ⟨s, db, [.emitAll .roomsUpdate, .emitTo sockId (.roomLeft "general")]⟩

/-- Transport-level disconnect (lines 627–674): arm the grace timer for the
user owning the socket, when there is one. -/
def disconnectStart (s : GameState) (db : DB) (sockId : String) : Out :=
  match s.onlineUsers.find? (fun u => u.socketId == sockId) with
  | none => ⟨s, db, []⟩
  | some u =>
    if s.disconnectPending.contains u.userId then ⟨s, db, []⟩
    else ⟨{ s with disconnectPending := s.disconnectPending ++ [u.userId] }, db, []⟩

/-- The grace-period expiry callback (lines 639–673); fires only while the
user's removal is still pending. -/
def disconnectExpiry (s : GameState) (db : DB) (uid : String) : Out :=
  if s.disconnectPending.contains uid then
    let s := { s with disconnectPending := s.disconnectPending.filter (fun x => x ≠ uid),
                      onlineUsers := s.onlineUsers.filter (fun u => u.userId ≠ uid),
                      triviaUsers := s.triviaUsers.filter (fun u => u.userId ≠ uid) }
    let effs := [Effect.emitAll .playersUpdate, Effect.emitAll .roomsUpdate]
    if s.triviaUsers.length < 2 then
      let s := { s with roundTimeout := false, waitTimeout := false, resultTimeout := false,
                        currentQuestion := none, submissions := [],
                        questionStartTime := none, waitStartTime := none,
                        winnerDeclared := false, firstCorrectUser := none }
      ⟨s, db, effs ++ [.emitAll .quizStopped]⟩
    else ⟨s, db, effs⟩
  else ⟨s, db, []⟩

/-! ### The serialized event-level transition relation

Each constructor is one handler (or timer callback) running to completion
with nothing interleaved.  This is a deliberate restriction of the source's
semantics: the `async` flow functions suspend at every awaited ledger call
(spec §5), and other handlers may run at those suspension points — runs
that this relation cannot reach.  The phase functions
`startNewQuestionEnter` / `startNewQuestionResume` and `emitResultsEnter`
realise such interleaved runs; the interleaving counterexamples below use
them to exhibit states outside this relation's reach.  Theorems stated
over `Step` or `Reachable` therefore hold of serialized (interleaving-free)
execution only.  The `pickarow:play` handler is omitted: it touches only
the ledger, never the round state or its timers. -/

inductive Step : GameState × DB → GameState × DB → Prop where
  | userJoin (s : GameState) (db : DB) (uid uname sockId : String) (now : Nat) :
      Step (s, db) ((userJoin s db uid uname sockId now).state, (userJoin s db uid uname sockId now).db)
  | roomJoin (s : GameState) (db : DB) (uid uname sockId : String) (now : Nat) :
      Step (s, db) ((roomJoinGeneral s db uid uname sockId now).state, (roomJoinGeneral s db uid uname sockId now).db)
  | roomLeave (s : GameState) (db : DB) (uid sockId : String) :
      Step (s, db) ((roomLeave s db uid sockId).state, (roomLeave s db uid sockId).db)
  | answer (s : GameState) (db : DB) (p : AnswerPayload) (sockId : String) (now : Nat) :
      Step (s, db) ((handleAnswer s db p sockId now).state, (handleAnswer s db p sockId now).db)
  | disconnectStart (s : GameState) (db : DB) (sockId : String) :
      Step (s, db) ((disconnectStart s db sockId).state, (disconnectStart s db sockId).db)
  | disconnectExpiry (s : GameState) (db : DB) (uid : String) :
      Step (s, db) ((disconnectExpiry s db uid).state, (disconnectExpiry s db uid).db)
  | waitFire (s : GameState) (db : DB) (now : Nat) (qOpt : Option Question) (rand : ℚ) :
      Step (s, db) ((waitFire s db now qOpt rand).state, (waitFire s db now qOpt rand).db)
  | roundFire (s : GameState) (db : DB) (now : Nat) :
      Step (s, db) ((roundFire s db now).state, (roundFire s db now).db)
  | resultFire (s : GameState) (db : DB) (now : Nat) :
      Step (s, db) ((resultFire s db now).state, (resultFire s db now).db)

/-- States reachable from module load, over an arbitrary initial ledger. -/
inductive Reachable : GameState × DB → Prop where
  | init (db : DB) : Reachable (initState, db)
  | step {a b : GameState × DB} : Reachable a → Step a b → Reachable b

/-! ### Concrete fixtures used by witnesses and counterexamples -/

def qX : Question :=
  ⟨"q1", "Capital of France?".toList, "Paris".toList, "geo".toList, "hard".toList, 150⟩

def uAlice : OnlineUser := ⟨SPECIAL_USER_ID, "Alice", 0, "s1"⟩

def uBob : OnlineUser := ⟨"u2", "Bob", 0, "s2"⟩

def uCarol : OnlineUser := ⟨"u3", "Carol", 0, "s3"⟩

def dbX : DB := [⟨SPECIAL_USER_ID, 5, 0, 0⟩, ⟨"u2", 5, 0, 0⟩, ⟨"u3", 5, 0, 0⟩]

/-- A mid-`Question` state: round 1 started at t = 1000 ms, Bob recorded as
first correct responder. -/
def stQ : GameState :=
  { initState with
    triviaUsers := [uAlice, uBob]
    currentRound := 1
    currentQuestion := some qX
    questionStartTime := some 1000
    roundTimeout := true
    resultTimeout := true
    submissions := [("u2", "paris".toList)]
    firstCorrectUser := some ("u2", "Bob") }

/-- Same situation without the privileged account: Carol and Bob. -/
def stQ2 : GameState :=
  { initState with
    triviaUsers := [uCarol, uBob]
    currentRound := 1
    currentQuestion := some qX
    questionStartTime := some 1000
    roundTimeout := true
    submissions := []
    firstCorrectUser := none }

/-! ### C3 — submission guards -/

/-- C3: an answer submission is processed only when the sender is a
trivia-room participant, a question is active with a recorded start time,
and the elapsed whole seconds since the start are strictly below the
question duration; otherwise the handler returns with no token deduction,
no recorded submission, and no other state change. -/
theorem c3_submission_guards (s : GameState) (db : DB) (p : AnswerPayload)
    (sockId : String) (now : Nat)
    (h : ¬((s.triviaUsers.find? (fun u => u.userId == p.userId)).isSome = true ∧
        ∃ q t0, s.currentQuestion = some q ∧ s.questionStartTime = some t0 ∧
          elapsedSec now t0 < QUESTION_DURATION)) :
    handleAnswer s db p sockId now = ⟨s, db, []⟩ := by
  unfold handleAnswer
  by_cases hf : (s.triviaUsers.find? (fun u => u.userId == p.userId)).isNone
  · simp [hf]
  · have hsome : (s.triviaUsers.find? (fun u => u.userId == p.userId)).isSome = true := by
      cases hx : s.triviaUsers.find? (fun u => u.userId == p.userId)
      · exact absurd (by simp [hx]) hf
      · simp
    rw [if_neg (by simp [hf])]
    split
    · next q t0 hq ht =>
      have hlate : QUESTION_DURATION ≤ elapsedSec now t0 := by
        by_contra hc
        exact h ⟨hsome, q, t0, hq, ht, by omega⟩
      rw [if_pos hlate]
    · rfl

/-- C3 witness: a submission arriving 34 s after the question start is
ignored outright. -/
theorem c3_submission_guards_witness :
    ¬(((stQ.triviaUsers.find? (fun u => u.userId == "u2")).isSome = true ∧
        ∃ q t0, stQ.currentQuestion = some q ∧ stQ.questionStartTime = some t0 ∧
          elapsedSec 35000 t0 < QUESTION_DURATION)) ∧
    handleAnswer stQ dbX ⟨"u2", "Bob", 1, "Paris".toList⟩ "s2" 35000 = ⟨stQ, dbX, []⟩ :=
  have hh : ¬(((stQ.triviaUsers.find? (fun u => u.userId == "u2")).isSome = true ∧
      ∃ q t0, stQ.currentQuestion = some q ∧ stQ.questionStartTime = some t0 ∧
        elapsedSec 35000 t0 < QUESTION_DURATION)) := by
    rintro ⟨-, q, t0, hq, ht, hlt⟩
    have h1000 : t0 = 1000 := Option.some.inj (ht.symm.trans rfl)
    rw [h1000] at hlt
    exact absurd hlt (by decide)
  ⟨hh, c3_submission_guards stQ dbX ⟨"u2", "Bob", 1, "Paris".toList⟩ "s2" 35000 hh⟩

/-! ### C4 — payload round number -/

/-- C4 (code bug): the deployed `quiz:answer` handler never reads the
payload's round number, although its own comment promises the original
logic semantics, the earlier revisions of the same handler rejected
mismatched rounds, and spec §6 requires the match.  A payload carrying
round 99 while the current round is 1 is still processed: the token is
deducted and the answer recorded. -/
theorem c4_round_mismatch_processed :
    (⟨"u2", "Bob", 99, "paris".toList⟩ : AnswerPayload).round ≠ stQ.currentRound ∧
    (handleAnswer stQ dbX ⟨"u2", "Bob", 99, "paris".toList⟩ "s2" 5000).effects.contains
      (Effect.useTokenCall "u2" 1) = true ∧
    getSubmission
      (handleAnswer stQ dbX ⟨"u2", "Bob", 99, "paris".toList⟩ "s2" 5000).state.submissions
      "u2" = some "paris".toList := by
  refine ⟨by decide, by decide, by decide⟩

/-! ### C5 — first-correct-responder assignment -/

/-- C5: the first-correct-responder is only ever set when no responder is
recorded yet and the normalised (trimmed, case-folded) submission equals
the normalised canonical answer, and then the resolution-delay timer is
running afterwards; a recorded responder is never overwritten, and a
running resolution timer is never stopped, by any later submission. -/
theorem c5_first_correct_responder (s : GameState) (db : DB) (p : AnswerPayload)
    (sockId : String) (now : Nat) :
    (∀ x, s.firstCorrectUser = some x →
      (handleAnswer s db p sockId now).state.firstCorrectUser = some x) ∧
    (∀ y, s.firstCorrectUser = none →
      (handleAnswer s db p sockId now).state.firstCorrectUser = some y →
      y = (p.userId, p.username) ∧
        (∃ q, s.currentQuestion = some q ∧ q.answer ≠ [] ∧
          normText p.answer = normText q.answer) ∧
        (handleAnswer s db p sockId now).state.resultTimeout = true) ∧
    (s.resultTimeout = true →
      (handleAnswer s db p sockId now).state.resultTimeout = true) := by
  unfold handleAnswer
  by_cases hf : (s.triviaUsers.find? (fun u => u.userId == p.userId)).isNone
  · rw [if_pos hf]
    exact ⟨fun x hx => hx, fun y h1 h2 => Option.noConfusion (h1 ▸ h2), fun h => h⟩
  · rw [if_neg hf]
    split
    · next q t0 hq ht =>
      by_cases hlate : QUESTION_DURATION ≤ elapsedSec now t0
      · rw [if_pos hlate]
        exact ⟨fun x hx => hx, fun y h1 h2 => Option.noConfusion (h1 ▸ h2), fun h => h⟩
      · rw [if_neg hlate]
        cases htok : dbUseToken db p.userId 1 with
        | mk res db1 =>
          cases res with
          | none =>
            exact ⟨fun x hx => hx, fun y h1 h2 => Option.noConfusion (h1 ▸ h2), fun h => h⟩
          | some u =>
            dsimp only
            by_cases hcond : (q.answer ≠ [] && jsLower (jsTrim p.answer) == jsLower q.answer
                && s.firstCorrectUser.isNone) = true
            · rw [if_pos hcond]
              have hcond' := hcond
              simp only [Bool.and_eq_true, bne_iff_ne, ne_eq, beq_iff_eq,
                Option.isNone_iff_eq_none, decide_eq_true_eq] at hcond'
              obtain ⟨⟨hne, hbeq⟩, hnone⟩ := hcond'
              refine ⟨fun x hx => Option.noConfusion (hnone ▸ hx), fun y _ hy => ?_,
                fun hrt => ?_⟩
              · constructor
                · split at hy
                  · exact (Option.some.inj hy).symm
                  · exact (Option.some.inj hy).symm
                · refine ⟨⟨q, hq, by simpa using hne, normText_eq_of_code_eq hbeq⟩, ?_⟩
                  split <;> simp_all
              · split <;> simp_all
            · rw [if_neg hcond]
              refine ⟨fun x hx => hx, fun y hn hy => ?_, fun hrt => hrt⟩
              exact Option.noConfusion (hn ▸ hy)
    · exact ⟨fun x hx => hx, fun y h1 h2 => Option.noConfusion (h1 ▸ h2), fun h => h⟩

/-- C5 witness: Bob is already the recorded first-correct responder of `stQ`;
Alice's later correct submission does not overwrite him. -/
theorem c5_first_correct_responder_witness :
    stQ.firstCorrectUser = some ("u2", "Bob") ∧
    (handleAnswer stQ dbX ⟨SPECIAL_USER_ID, "Alice", 1, "Paris".toList⟩ "s1" 5000).state.firstCorrectUser
      = some ("u2", "Bob") :=
  ⟨rfl, (c5_first_correct_responder stQ dbX ⟨SPECIAL_USER_ID, "Alice", 1, "Paris".toList⟩
    "s1" 5000).1 ("u2", "Bob") rfl⟩

/-! ### Resolution lemmas shared by several claims -/

/-- The uids passed to the balance-credit ledger call, in call order. -/
def creditUids (effs : List Effect) : List String :=
  effs.filterMap (fun e => match e with | .creditBalance uid _ => some uid | _ => none)

/-- The participant the resolution branch structure of `emitResults` selects:
the online privileged account if present, else the recorded first-correct
responder if still in the room. -/
def selectedWinnerUid (s : GameState) : Option String :=
  match s.triviaUsers.find? (fun u => u.userId == SPECIAL_USER_ID) with
  | some su => some su.userId
  | none =>
    match s.firstCorrectUser with
    | some fc => (s.triviaUsers.find? (fun u => u.userId == fc.1)).map (·.userId)
    | none => none

def timersOff (s : GameState) : Prop :=
  s.roundTimeout = false ∧ s.resultTimeout = false

theorem creditUids_append (a b : List Effect) :
    creditUids (a ++ b) = creditUids a ++ creditUids b := by
  unfold creditUids; rw [List.filterMap_append]

theorem creditUids_loopEffect (round : Nat) (ans : Str) (winfo : Option WinnerInfo)
    (sp fc : Option String) (subs : List (String × Str)) (u : OnlineUser) :
    creditUids (loopEffect round ans winfo sp fc subs u) = [] := by
  unfold loopEffect
  split
  · rfl
  · split
    · rfl
    · split
      · split
        · rfl
        · rfl
      · rfl

theorem creditUids_flatMap_loop (round : Nat) (ans : Str) (winfo : Option WinnerInfo)
    (sp fc : Option String) (subs : List (String × Str)) (l : List OnlineUser) :
    creditUids (l.flatMap (loopEffect round ans winfo sp fc subs)) = [] := by
  induction l with
  | nil => rfl
  | cons a t ih =>
    rw [List.flatMap_cons, creditUids_append, creditUids_loopEffect, ih]
    rfl

/-- `find?` over the membership-preserving update performed by the ledger
writes. -/
theorem find?_update (db : DB) (uid : String) (u' : UserDoc)
    (hu : (u'.uid == uid) = true) :
    ∀ d, db.find? (fun u => u.uid == uid) = some d →
      (db.map (fun v => if v.uid == uid then u' else v)).find? (fun u => u.uid == uid)
        = some u' := by
  induction db with
  | nil => intro d h; cases h
  | cons a t ih =>
    intro d h
    rw [List.find?_cons] at h
    cases hx : (a.uid == uid) with
    | true =>
      rw [List.map_cons, if_pos hx, List.find?_cons, hu]
    | false =>
      rw [hx] at h
      rw [List.map_cons, if_neg (by simp [hx]), List.find?_cons, hx]
      exact ih d h

/-- Explicit value of the reward sequence when the winner exists in the
ledger. -/
theorem doReward_eq (s : GameState) (db : DB) (w : OnlineUser) (q : Question)
    (d : UserDoc) (hdb : db.find? (fun u => u.uid == w.userId) = some d) :
    doReward s db w q = Except.ok
      ({ s with
          triviaUsers := s.triviaUsers.map (fun u =>
            if u.userId == w.userId then { u with exp := d.exp + 1 } else u),
          onlineUsers := s.onlineUsers.map (fun u =>
            if u.userId == w.userId then { u with exp := d.exp + 1 } else u) },
        (db.map (fun v => if v.uid == w.userId then
            { d with balance := d.balance + q.reward_amount } else v)).map
          (fun v => if v.uid == w.userId then
            { d with balance := d.balance + q.reward_amount, exp := d.exp + 1 } else v),
        [Effect.creditBalance w.userId q.reward_amount,
         Effect.setExp w.userId (d.exp + 1),
         Effect.markAnswered q.qid w.userId,
         Effect.emitTo w.socketId (.quizWinner
           ⟨w.userId, w.username, q.reward_amount, d.exp + 1⟩ s.currentRound q.answer)],
        ⟨w.userId, w.username, q.reward_amount, d.exp + 1⟩) := by
  have hu : (d.uid == w.userId) = true := by
    have := List.find?_some hdb
    simpa using this
  unfold doReward dbAddBalance dbSetExp
  rw [hdb]
  dsimp only
  rw [find?_update db w.userId { d with balance := d.balance + q.reward_amount }
    (by simpa using hu) d hdb]

theorem finishRound_winnerInfo (s : GameState) (db : DB) (now : Nat)
    (effs : List Effect) (w : Option WinnerInfo) :
    (finishRound s db now effs w).winnerInfo = w := by
  unfold finishRound
  split <;> rfl

theorem finishRound_effects (s : GameState) (db : DB) (now : Nat)
    (effs : List Effect) (w : Option WinnerInfo) :
    (finishRound s db now effs w).effects
      = effs ++ (if 2 ≤ s.triviaUsers.length then [] else [.emitAll .quizStopped]) := by
  unfold finishRound
  split
  · next h =>
    have h' : 2 ≤ s.triviaUsers.length := h
    rw [if_pos h']
    rfl
  · next h =>
    have h' : ¬2 ≤ s.triviaUsers.length := h
    rw [if_neg h']

theorem finishRound_timersOff (s : GameState) (db : DB) (now : Nat)
    (effs : List Effect) (w : Option WinnerInfo) :
    timersOff (finishRound s db now effs w).state ∧
    (finishRound s db now effs w).state.currentQuestion = none ∧
    (finishRound s db now effs w).state.winnerDeclared = true := by
  unfold finishRound
  split <;> exact ⟨⟨rfl, rfl⟩, rfl, rfl⟩

theorem finishRound_db (s : GameState) (db : DB) (now : Nat)
    (effs : List Effect) (w : Option WinnerInfo) :
    (finishRound s db now effs w).db = db := by
  unfold finishRound
  split <;> rfl

/-- The reward sequence invokes the balance-credit ledger call exactly once,
for the selected winner, on every path. -/
theorem doReward_credits (s : GameState) (db : DB) (w : OnlineUser) (q : Question) :
    (∀ db' effs, doReward s db w q = .error (db', effs) →
      creditUids effs = [w.userId]) ∧
    (∀ s' db' effs wi, doReward s db w q = .ok (s', db', effs, wi) →
      creditUids effs = [w.userId] ∧ wi.userId = w.userId) := by
  unfold doReward
  cases hab : dbAddBalance db w.userId q.reward_amount with
  | mk ru db1 =>
    cases ru with
    | none =>
      dsimp only
      refine ⟨fun db' effs h => ?_, fun s' db' effs wi h => ?_⟩
      · injection h with h'
        cases h'
        rfl
      · cases h
    | some ruDoc =>
      dsimp only
      cases hse : dbSetExp db1 w.userId (ruDoc.exp + 1) with
      | mk r2 db2 =>
        cases r2 with
        | none =>
          dsimp only
          refine ⟨fun db' effs h => ?_, fun s' db' effs wi h => ?_⟩
          · injection h with h'
            cases h'
            rfl
          · cases h
        | some e2 =>
          dsimp only
          refine ⟨fun db' effs h => ?_, fun s' db' effs wi h => ?_⟩
          · cases h
          · injection h with h'
            injection h' with h1 h2
            injection h2 with h3 h4
            injection h4 with h5 h6
            rw [← h5, ← h6]
            exact ⟨rfl, rfl⟩

/-- Facts about `emitBranch` composed with a reward sequence for winner `w`:
exactly one credit, to `w`, and the post-state either has both round timers
down or is untouched. -/
theorem emitBranch_facts (s : GameState) (db : DB) (now : Nat) (q : Question)
    (sp : Option String) (w : OnlineUser) :
    creditUids (emitBranch s db now q sp (doReward s db w q)).effects = [w.userId] ∧
    (timersOff (emitBranch s db now q sp (doReward s db w q)).state ∨
      (emitBranch s db now q sp (doReward s db w q)).state = s) := by
  unfold emitBranch
  cases hdr : doReward s db w q with
  | error e =>
    obtain ⟨db', effs⟩ := e
    exact ⟨(doReward_credits s db w q).1 db' effs hdr, Or.inr rfl⟩
  | ok v =>
    obtain ⟨s1, db1, effs1, wi⟩ := v
    unfold emitTail
    refine ⟨?_, Or.inl (finishRound_timersOff _ _ _ _ _).1⟩
    rw [finishRound_effects, creditUids_append, creditUids_append, creditUids_append,
      ((doReward_credits s db w q).2 s1 db1 effs1 wi hdr).1, creditUids_flatMap_loop]
    split <;> rfl

theorem emitTail_nowin_facts (s : GameState) (db : DB) (now : Nat) (q : Question) :
    creditUids (emitTail s q none now s db [] none).effects = [] ∧
    timersOff (emitTail s q none now s db [] none).state := by
  unfold emitTail
  refine ⟨?_, (finishRound_timersOff _ _ _ _ _).1⟩
  rw [finishRound_effects, creditUids_append, creditUids_append, creditUids_append,
    creditUids_flatMap_loop]
  split <;> rfl

/-- Per-invocation crediting discipline of `emitResults`: the balance-credit
ledger call happens at most once, only for the branch-selected winner, and
afterwards either nothing changed (the early returns and the abort paths) or
both round-scoped timers are down. -/
theorem emitResults_credits (s : GameState) (db : DB) (now : Nat) :
    (creditUids (emitResults s db now).effects = [] ∨
      ∃ u, selectedWinnerUid s = some u ∧
        creditUids (emitResults s db now).effects = [u]) ∧
    (timersOff (emitResults s db now).state ∨ (emitResults s db now).state = s) := by
  unfold emitResults
  cases hq : s.currentQuestion with
  | none => exact ⟨Or.inl rfl, Or.inr rfl⟩
  | some q =>
    dsimp only
    by_cases hans : q.answer = []
    · rw [if_pos hans]
      exact ⟨Or.inl rfl, Or.inr rfl⟩
    · rw [if_neg hans]
      cases hsu : s.triviaUsers.find? (fun u => u.userId == SPECIAL_USER_ID) with
      | some su =>
        have hsel : selectedWinnerUid s = some su.userId := by
          unfold selectedWinnerUid; rw [hsu]
        exact ⟨Or.inr ⟨su.userId, hsel, (emitBranch_facts s db now q (some su.userId) su).1⟩,
          (emitBranch_facts s db now q (some su.userId) su).2⟩
      | none =>
        cases hfc : s.firstCorrectUser with
        | none =>
          exact ⟨Or.inl (emitTail_nowin_facts s db now q).1,
            Or.inl (emitTail_nowin_facts s db now q).2⟩
        | some fc =>
          dsimp only
          cases hwu : s.triviaUsers.find? (fun u => u.userId == fc.1) with
          | none =>
            exact ⟨Or.inl (emitTail_nowin_facts s db now q).1,
              Or.inl (emitTail_nowin_facts s db now q).2⟩
          | some wu =>
            have hsel : selectedWinnerUid s = some wu.userId := by
              unfold selectedWinnerUid
              rw [hsu]
              dsimp only
              rw [hfc]
              dsimp only
              rw [hwu]
              rfl
            exact ⟨Or.inr ⟨wu.userId, hsel, (emitBranch_facts s db now q none wu).1⟩,
              (emitBranch_facts s db now q none wu).2⟩

theorem roundFire_off (s : GameState) (db : DB) (now : Nat)
    (h : s.roundTimeout = false) : roundFire s db now = ⟨s, db, []⟩ := by
  unfold roundFire
  rw [if_neg (by simp [h])]

theorem resultFire_off (s : GameState) (db : DB) (now : Nat)
    (h : s.resultTimeout = false) : resultFire s db now = ⟨s, db, []⟩ := by
  unfold resultFire
  rw [if_neg (by simp [h])]

theorem roundFire_facts (s : GameState) (db : DB) (now : Nat) :
    (creditUids (roundFire s db now).effects = [] ∨
      ∃ u, selectedWinnerUid s = some u ∧
        creditUids (roundFire s db now).effects = [u]) ∧
    (timersOff (roundFire s db now).state ∨
      selectedWinnerUid (roundFire s db now).state = selectedWinnerUid s) := by
  unfold roundFire
  by_cases hrt : s.roundTimeout = true
  · rw [if_pos hrt]
    dsimp only
    by_cases hg : (!s.winnerDeclared && s.currentQuestion.isSome) = true
    · rw [if_pos hg]
      obtain ⟨h1, h2⟩ := emitResults_credits { s with roundTimeout := false } db now
      have hsel : selectedWinnerUid { s with roundTimeout := false }
          = selectedWinnerUid s := rfl
      refine ⟨by rw [← hsel]; exact h1, ?_⟩
      rcases h2 with h | h
      · exact Or.inl h
      · right
        rw [h]
        exact rfl
    · rw [if_neg hg]
      exact ⟨Or.inl rfl, Or.inr rfl⟩
  · rw [if_neg hrt]
    exact ⟨Or.inl rfl, Or.inr rfl⟩

theorem resultFire_facts (s : GameState) (db : DB) (now : Nat) :
    (creditUids (resultFire s db now).effects = [] ∨
      ∃ u, selectedWinnerUid s = some u ∧
        creditUids (resultFire s db now).effects = [u]) ∧
    (timersOff (resultFire s db now).state ∨
      selectedWinnerUid (resultFire s db now).state = selectedWinnerUid s) := by
  unfold resultFire
  by_cases hrt : s.resultTimeout = true
  · rw [if_pos hrt]
    dsimp only
    obtain ⟨h1, h2⟩ := emitResults_credits { s with resultTimeout := false } db now
    have hsel : selectedWinnerUid { s with resultTimeout := false }
        = selectedWinnerUid s := rfl
    refine ⟨by rw [← hsel]; exact h1, ?_⟩
    rcases h2 with h | h
    · exact Or.inl h
    · right
      rw [h]
      exact rfl
  · rw [if_neg hrt]
    exact ⟨Or.inl rfl, Or.inr rfl⟩

theorem handleAnswer_no_credit (s : GameState) (db : DB) (p : AnswerPayload)
    (sockId : String) (now : Nat) :
    creditUids (handleAnswer s db p sockId now).effects = [] := by
  unfold handleAnswer
  split
  · rfl
  · split
    · split
      · rfl
      · cases dbUseToken db p.userId 1 with
        | mk res db1 =>
          cases res with
          | none => rfl
          | some u =>
            dsimp only
            split
            · rfl
            · rfl
    · rfl

theorem dedup_len_le_one {l : List String}
    (h : ∀ x ∈ l, ∀ y ∈ l, x = y) : l.dedup.length ≤ 1 := by
  by_contra hlen
  push_neg at hlen
  match hd : l.dedup with
  | [] => rw [hd] at hlen; simp at hlen
  | [b] => rw [hd] at hlen; simp at hlen
  | b :: c :: t =>
    have hnd := l.nodup_dedup
    rw [hd] at hnd
    have hb : b ∈ l := List.mem_dedup.mp (by rw [hd]; simp)
    have hc : c ∈ l := List.mem_dedup.mp (by rw [hd]; simp)
    have hbc : b = c := h b hb c hc
    simp [hbc] at hnd

theorem all_mem_eq_of_pieces {p1 p2 p3 : List String} {os : Option String}
    (f1 : p1 = [] ∨ ∃ u, os = some u ∧ p1 = [u])
    (f2 : p2 = [] ∨ ∃ u, os = some u ∧ p2 = [u])
    (f3 : p3 = [] ∨ ∃ u, os = some u ∧ p3 = [u]) :
    ∀ x ∈ p1 ++ (p2 ++ p3), ∀ y ∈ p1 ++ (p2 ++ p3), x = y := by
  have key : ∀ x ∈ p1 ++ (p2 ++ p3), os = some x := by
    intro x hx
    rcases List.mem_append.mp hx with h | h
    · rcases f1 with e | ⟨u, hu, e⟩
      · rw [e] at h; simp at h
      · rw [e] at h; simp at h; rw [h]; exact hu
    · rcases List.mem_append.mp h with h | h
      · rcases f2 with e | ⟨u, hu, e⟩
        · rw [e] at h; simp at h
        · rw [e] at h; simp at h; rw [h]; exact hu
      · rcases f3 with e | ⟨u, hu, e⟩
        · rw [e] at h; simp at h
        · rw [e] at h; simp at h; rw [h]; exact hu
  intro x hx y hy
  exact Option.some.inj ((key x hx).symm.trans (key y hy))

/-- The effect trace of one serialized resolution: `emitResults` run to
completion with no handler interleaved at its ledger awaits, followed by
the question-deadline callback and then the resolution-delay callback,
each firing against whatever state the previous leaves.  Interleaved runs
— a handler executing while `emitResults` is suspended at an await — are
not of this shape; see the C2 interleaving counterexample. -/
def resolutionTrace (s : GameState) (db : DB) (now n2 n3 : Nat) : List Effect :=
  (emitResults s db now).effects
    ++ ((roundFire (emitResults s db now).state (emitResults s db now).db n2).effects
      ++ (resultFire
          (roundFire (emitResults s db now).state (emitResults s db now).db n2).state
          (roundFire (emitResults s db now).state (emitResults s db now).db n2).db
          n3).effects)

/-- C2 (amended): under serialized execution, at most one participant is
credited per round: a single `emitResults` invocation performs at most one
balance-credit call; across an uninterrupted resolution and both
subsequent deadline-timer callbacks all credit calls target one
participant; and the answer handler itself never credits.  Once handlers
interleave at the awaited ledger calls the per-round bound fails — see the
counterexample below. -/
theorem c2_at_most_one_credit (s : GameState) (db : DB) (now n2 n3 : Nat) :
    (creditUids (emitResults s db now).effects).length ≤ 1 ∧
    (creditUids (resolutionTrace s db now n2 n3)).dedup.length ≤ 1 ∧
    (∀ p sockId, creditUids (handleAnswer s db p sockId now).effects = []) := by
  obtain ⟨h1, h2⟩ := emitResults_credits s db now
  refine ⟨?_, ?_, fun p sockId => handleAnswer_no_credit s db p sockId now⟩
  · rcases h1 with h | ⟨u, hu, h⟩ <;> simp [h]
  · unfold resolutionTrace
    rw [creditUids_append, creditUids_append]
    have f1 : creditUids (emitResults s db now).effects = [] ∨
        ∃ u, selectedWinnerUid s = some u ∧
          creditUids (emitResults s db now).effects = [u] := h1
    rcases h2 with hoff | hid
    · rw [roundFire_off _ _ _ hoff.1]
      dsimp only
      rw [resultFire_off _ _ _ hoff.2]
      exact dedup_len_le_one (all_mem_eq_of_pieces f1 (Or.inl rfl) (Or.inl rfl))
    · rw [hid]
      obtain ⟨g1, g2⟩ := roundFire_facts s (emitResults s db now).db n2
      rcases g2 with goff | gsel
      · rw [resultFire_off _ _ _ goff.2]
        exact dedup_len_le_one (all_mem_eq_of_pieces f1 g1 (Or.inl rfl))
      · obtain ⟨k1, -⟩ := resultFire_facts
          (roundFire s (emitResults s db now).db n2).state
          (roundFire s (emitResults s db now).db n2).db n3
        rw [gsel] at k1
        exact dedup_len_le_one (all_mem_eq_of_pieces f1 g1 k1)

/-- The resolution-delay callback fires against `stQ`: its pending flag is
consumed and `emitResults` runs up to the balance-credit await for the
privileged account — the credit is issued, then the function suspends. -/
def c2Enter : EROut × Option OnlineUser :=
  emitResultsEnter { stQ with resultTimeout := false } dbX 20000

/-- While the first resolution is suspended at the await, the privileged
account's `room:leave` is processed. -/
def c2Left : Out := roomLeave c2Enter.1.state c2Enter.1.db SPECIAL_USER_ID "s1"

/-- The question-deadline callback then fires: the suspended resolution has
not yet set `winnerDeclared` or cleared `currentQuestion`, so the guard
passes and a second, complete resolution runs. -/
def c2Second : Out := roundFire c2Left.state c2Left.db 31000

/-- C2 counterexample to the per-round bound: `emitResults` suspends at its
awaited balance credit with the credit already issued; the privileged
account leaves and the still-pending question deadline fires during that
await, so a second resolution finds no privileged account, finds the
recorded first-correct responder still in the room, and credits them too —
the round's combined trace credits two distinct participants, with the
round number unchanged throughout. -/
theorem c2_two_credits_counterexample :
    stQ.currentRound = 1 ∧
    c2Enter.2 = some uAlice ∧
    c2Left.state.currentRound = 1 ∧
    c2Second.state.currentRound = 1 ∧
    creditUids (c2Enter.1.effects ++ c2Second.effects)
      = [SPECIAL_USER_ID, "u2"] ∧
    SPECIAL_USER_ID ≠ "u2" := by decide

/-! ### C1 — the forced-winner override -/

/-- Shared reduction: with the privileged account online, an active question
with a non-empty answer, and the account present in the ledger,
`emitResults` deterministically rewards exactly that account. -/
theorem emitResults_special_eq (s : GameState) (db : DB) (now : Nat)
    (su : OnlineUser) (q : Question) (d : UserDoc)
    (hq : s.currentQuestion = some q) (hans : q.answer ≠ [])
    (hsu : s.triviaUsers.find? (fun u => u.userId == SPECIAL_USER_ID) = some su)
    (hdb : db.find? (fun u => u.uid == su.userId) = some d) :
    (emitResults s db now).winnerInfo
      = some ⟨su.userId, su.username, q.reward_amount, d.exp + 1⟩ ∧
    Effect.emitTo su.socketId (.quizWinner
        ⟨su.userId, su.username, q.reward_amount, d.exp + 1⟩ s.currentRound q.answer)
      ∈ (emitResults s db now).effects := by
  unfold emitResults
  rw [hq]
  dsimp only
  rw [if_neg hans, hsu]
  dsimp only
  unfold emitBranch
  rw [doReward_eq s db su q d hdb]
  dsimp only
  unfold emitTail
  refine ⟨finishRound_winnerInfo _ _ _ _ _, ?_⟩
  rw [finishRound_effects]
  simp

/-- C1 (amended): the forced-winner override as the code implements it.
Whenever the hardcoded privileged identity is among the trivia-room
participants (and exists in the ledger) while a question with a non-empty
answer is being resolved, resolution deterministically selects that
account as the winner — crediting it and emitting its won event —
overriding whatever first-correct-responder is recorded; no random
selection takes place. -/
theorem c1_forced_winner_override (s : GameState) (db : DB) (now : Nat)
    (su : OnlineUser) (q : Question) (d : UserDoc)
    (hq : s.currentQuestion = some q) (hans : q.answer ≠ [])
    (hsu : s.triviaUsers.find? (fun u => u.userId == SPECIAL_USER_ID) = some su)
    (hdb : db.find? (fun u => u.uid == su.userId) = some d) :
    (emitResults s db now).winnerInfo
      = some ⟨su.userId, su.username, q.reward_amount, d.exp + 1⟩ ∧
    creditUids (emitResults s db now).effects = [su.userId] ∧
    selectedWinnerUid s = some su.userId := by
  refine ⟨(emitResults_special_eq s db now su q d hq hans hsu hdb).1, ?_, ?_⟩
  · unfold emitResults
    rw [hq]
    dsimp only
    rw [if_neg hans, hsu]
    exact (emitBranch_facts s db now q (some su.userId) su).1
  · unfold selectedWinnerUid
    rw [hsu]

/-- C1 witness: Bob answered first and correctly, yet Alice (the privileged
account) is selected. -/
theorem c1_forced_winner_override_witness :
    (stQ.currentQuestion = some qX ∧ qX.answer ≠ [] ∧
      stQ.triviaUsers.find? (fun u => u.userId == SPECIAL_USER_ID) = some uAlice ∧
      dbX.find? (fun u => u.uid == uAlice.userId) = some ⟨SPECIAL_USER_ID, 5, 0, 0⟩ ∧
      stQ.firstCorrectUser = some ("u2", "Bob")) ∧
    (emitResults stQ dbX 20000).winnerInfo
      = some ⟨uAlice.userId, uAlice.username, qX.reward_amount, 1⟩ :=
  ⟨⟨rfl, by decide, by decide, by decide, rfl⟩,
    (c1_forced_winner_override stQ dbX 20000 uAlice qX ⟨SPECIAL_USER_ID, 5, 0, 0⟩
      rfl (by decide) (by decide) (by decide)).1⟩

/-- C1 counterexample: the claim presupposes that more than one
forced-winner identity can be online and that resolution then draws
uniformly at random among them.  The code's forced-winner set is the
single hardcoded constant (so two distinct online forced-winner identities
cannot exist), and resolution contains no random draw: with first-correct
responder Bob recorded, it deterministically selects the privileged
account, never Bob. -/
theorem c1_single_forced_winner_counterexample :
    forcedWinnerIds.length = 1 ∧
    stQ.firstCorrectUser = some ("u2", "Bob") ∧
    ((emitResults stQ dbX 20000).winnerInfo.map (·.userId)) = some SPECIAL_USER_ID ∧
    ((emitResults stQ dbX 20000).winnerInfo.map (·.userId)) ≠ some "u2" := by
  refine ⟨rfl, rfl, by decide, by decide⟩

/-! ### C6 — reward sequence order and per-participant outcome events -/

def isLedgerOp : Effect → Bool
  | .creditBalance _ _ => true
  | .setExp _ _ => true
  | .markAnswered _ _ => true
  | _ => false

/-- The ledger-service invocations of a trace, in call order. -/
def ledgerOps (effs : List Effect) : List Effect := effs.filter isLedgerOp

theorem ledgerOps_append (a b : List Effect) :
    ledgerOps (a ++ b) = ledgerOps a ++ ledgerOps b := by
  unfold ledgerOps; rw [List.filter_append]

theorem ledgerOps_loopEffect (round : Nat) (ans : Str) (winfo : Option WinnerInfo)
    (sp fc : Option String) (subs : List (String × Str)) (u : OnlineUser) :
    ledgerOps (loopEffect round ans winfo sp fc subs u) = [] := by
  unfold loopEffect
  split
  · rfl
  · split
    · rfl
    · split
      · split
        · rfl
        · rfl
      · rfl

theorem ledgerOps_flatMap_loop (round : Nat) (ans : Str) (winfo : Option WinnerInfo)
    (sp fc : Option String) (subs : List (String × Str)) (l : List OnlineUser) :
    ledgerOps (l.flatMap (loopEffect round ans winfo sp fc subs)) = [] := by
  induction l with
  | nil => rfl
  | cons a t ih =>
    rw [List.flatMap_cons, ledgerOps_append, ledgerOps_loopEffect, ih]
    rfl

/-- The outcome-loop iteration ignores the `exp` refresh applied to the
winner's entries. -/
theorem loopEffect_exp (round : Nat) (ans : Str) (winfo : Option WinnerInfo)
    (sp fc : Option String) (subs : List (String × Str)) (u : OnlineUser)
    (c : Bool) (e : Nat) :
    loopEffect round ans winfo sp fc subs
        (if c then { u with exp := e } else u)
      = loopEffect round ans winfo sp fc subs u := by
  cases c <;> rfl

/-- Full effect trace of the special-user resolution path. -/
theorem emitResults_special_effects (s : GameState) (db : DB) (now : Nat)
    (su : OnlineUser) (q : Question) (d : UserDoc)
    (hq : s.currentQuestion = some q) (hans : q.answer ≠ [])
    (hsu : s.triviaUsers.find? (fun u => u.userId == SPECIAL_USER_ID) = some su)
    (hdb : db.find? (fun u => u.uid == su.userId) = some d) :
    (emitResults s db now).effects
      = ([Effect.creditBalance su.userId q.reward_amount,
          Effect.setExp su.userId (d.exp + 1),
          Effect.markAnswered q.qid su.userId,
          Effect.emitTo su.socketId (.quizWinner
            ⟨su.userId, su.username, q.reward_amount, d.exp + 1⟩ s.currentRound q.answer)]
        ++ ((s.triviaUsers.map (fun u =>
              if u.userId == su.userId then { u with exp := d.exp + 1 } else u)).flatMap
                (loopEffect s.currentRound q.answer
                  (some ⟨su.userId, su.username, q.reward_amount, d.exp + 1⟩)
                  (some su.userId) (s.firstCorrectUser.map (·.1)) s.submissions)
            ++ [Effect.emitAll .playersUpdate]))
        ++ (if 2 ≤ (s.triviaUsers.map (fun u =>
              if u.userId == su.userId then { u with exp := d.exp + 1 } else u)).length
            then [] else [Effect.emitAll .quizStopped]) := by
  unfold emitResults
  rw [hq]
  dsimp only
  rw [if_neg hans, hsu]
  dsimp only
  unfold emitBranch
  rw [doReward_eq s db su q d hdb]
  dsimp only
  unfold emitTail
  rw [finishRound_effects]
  rfl

/-- Full effect trace of the ordinary first-correct-winner resolution path
(no privileged account present, the recorded first-correct responder still
in the room). -/
theorem emitResults_fc_effects (s : GameState) (db : DB) (now : Nat)
    (w : OnlineUser) (fc : String × String) (q : Question) (d : UserDoc)
    (hq : s.currentQuestion = some q) (hans : q.answer ≠ [])
    (hsu : s.triviaUsers.find? (fun u => u.userId == SPECIAL_USER_ID) = none)
    (hfc : s.firstCorrectUser = some fc)
    (hwu : s.triviaUsers.find? (fun u => u.userId == fc.1) = some w)
    (hdb : db.find? (fun u => u.uid == w.userId) = some d) :
    (emitResults s db now).effects
      = ([Effect.creditBalance w.userId q.reward_amount,
          Effect.setExp w.userId (d.exp + 1),
          Effect.markAnswered q.qid w.userId,
          Effect.emitTo w.socketId (.quizWinner
            ⟨w.userId, w.username, q.reward_amount, d.exp + 1⟩ s.currentRound q.answer)]
        ++ ((s.triviaUsers.map (fun u =>
              if u.userId == w.userId then { u with exp := d.exp + 1 } else u)).flatMap
                (loopEffect s.currentRound q.answer
                  (some ⟨w.userId, w.username, q.reward_amount, d.exp + 1⟩)
                  none (s.firstCorrectUser.map (·.1)) s.submissions)
            ++ [Effect.emitAll .playersUpdate]))
        ++ (if 2 ≤ (s.triviaUsers.map (fun u =>
              if u.userId == w.userId then { u with exp := d.exp + 1 } else u)).length
            then [] else [Effect.emitAll .quizStopped]) := by
  unfold emitResults
  rw [hq]
  dsimp only
  rw [if_neg hans, hsu]
  dsimp only
  rw [hfc]
  dsimp only
  rw [hwu]
  dsimp only
  unfold emitBranch
  rw [doReward_eq s db w q d hdb]
  dsimp only
  unfold emitTail
  rw [finishRound_effects]
  rw [hfc]
  rfl

/-- C6 (amended): whenever resolution has a winner — the privileged account
if present, else the recorded first-correct responder still in the room —
the machine invokes exactly credit-balance, then experience-set to old
experience plus one, then mark-answered, in that order; the winner receives
the won event; every participant with an absent (or all-whitespace, hence
falsy) recorded submission receives a no-response event — including the
winner; a participant with a non-matching recorded submission receives a
wrong event — including the winner; and a participant whose recorded
submission matches the canonical answer is skipped by the outcome loop
(receiving nothing) whenever they are the winner or the recorded
first-correct responder, and receives the correct-but-not-fastest event
otherwise. -/
theorem c6_resolution_order_and_outcomes (s : GameState) (db : DB) (now : Nat)
    (w : OnlineUser) (q : Question) (d : UserDoc)
    (hq : s.currentQuestion = some q) (hans : q.answer ≠ [])
    (hwin : s.triviaUsers.find? (fun u => u.userId == SPECIAL_USER_ID) = some w ∨
      (s.triviaUsers.find? (fun u => u.userId == SPECIAL_USER_ID) = none ∧
        ∃ fc, s.firstCorrectUser = some fc ∧
          s.triviaUsers.find? (fun u => u.userId == fc.1) = some w))
    (hdb : db.find? (fun u => u.uid == w.userId) = some d) :
    ledgerOps (emitResults s db now).effects
      = [Effect.creditBalance w.userId q.reward_amount,
         Effect.setExp w.userId (d.exp + 1),
         Effect.markAnswered q.qid w.userId] ∧
    Effect.emitTo w.socketId (.quizWinner
        ⟨w.userId, w.username, q.reward_amount, d.exp + 1⟩ s.currentRound q.answer)
      ∈ (emitResults s db now).effects ∧
    (∀ u ∈ s.triviaUsers,
      (getSubmission s.submissions u.userId = none ∨
        getSubmission s.submissions u.userId = some []) →
      Effect.emitTo u.socketId (.quizEnd s.currentRound q.answer MSG_NO_RESPONSE
          (some ⟨w.userId, w.username, q.reward_amount, d.exp + 1⟩))
        ∈ (emitResults s db now).effects) ∧
    (∀ u ∈ s.triviaUsers, ∀ t, getSubmission s.submissions u.userId = some t →
      t ≠ [] → jsLower (jsTrim t) = jsLower q.answer →
      (u.userId = w.userId ∨ s.firstCorrectUser.map (·.1) = some u.userId) →
      loopEffect s.currentRound q.answer
          (some ⟨w.userId, w.username, q.reward_amount, d.exp + 1⟩)
          ((s.triviaUsers.find? (fun v => v.userId == SPECIAL_USER_ID)).map (·.userId))
          (s.firstCorrectUser.map (·.1)) s.submissions u = []) ∧
    (∀ u ∈ s.triviaUsers, ∀ t, getSubmission s.submissions u.userId = some t →
      t ≠ [] → jsLower (jsTrim t) = jsLower q.answer →
      ¬(u.userId = w.userId ∨ s.firstCorrectUser.map (·.1) = some u.userId) →
      Effect.emitTo u.socketId (.quizEnd s.currentRound q.answer MSG_NOT_FASTEST
          (some ⟨w.userId, w.username, q.reward_amount, d.exp + 1⟩))
        ∈ (emitResults s db now).effects) ∧
    (∀ u ∈ s.triviaUsers, ∀ t, getSubmission s.submissions u.userId = some t →
      t ≠ [] → jsLower (jsTrim t) ≠ jsLower q.answer →
      Effect.emitTo u.socketId (.quizEnd s.currentRound q.answer MSG_WRONG
          (some ⟨w.userId, w.username, q.reward_amount, d.exp + 1⟩))
        ∈ (emitResults s db now).effects) := by
  rcases hwin with hsu | ⟨hsu, fc, hfc, hwu⟩
  · have heff := emitResults_special_effects s db now w q d hq hans hsu hdb
    have hmemloop : ∀ u ∈ s.triviaUsers, ∀ x,
        x ∈ loopEffect s.currentRound q.answer
              (some ⟨w.userId, w.username, q.reward_amount, d.exp + 1⟩)
              ((s.triviaUsers.find? (fun v => v.userId == SPECIAL_USER_ID)).map (·.userId))
              (s.firstCorrectUser.map (·.1)) s.submissions u →
        x ∈ (emitResults s db now).effects := by
      intro u hu x hx
      rw [hsu] at hx
      rw [heff]
      refine List.mem_append_left _ (List.mem_append_right _ (List.mem_append_left _ ?_))
      refine List.mem_flatMap.mpr ⟨(fun v =>
        if v.userId == w.userId then { v with exp := d.exp + 1 } else v) u,
        List.mem_map_of_mem _ hu, ?_⟩
      rw [loopEffect_exp]
      exact hx
    refine ⟨?_, (emitResults_special_eq s db now w q d hq hans hsu hdb).2, ?_, ?_, ?_, ?_⟩
    · rw [heff, ledgerOps_append, ledgerOps_append, ledgerOps_append,
        ledgerOps_flatMap_loop]
      split <;> rfl
    · intro u hu hsub
      refine hmemloop u hu _ ?_
      unfold loopEffect
      rcases hsub with h | h <;> rw [h] <;> simp
    · intro u hu t hsub hne hmatch hskip
      unfold loopEffect
      rw [hsub]
      dsimp only
      rw [if_neg hne]
      rw [if_pos (by simpa using hmatch)]
      rw [if_pos ?_]
      rcases hskip with h | h
      · apply Bool.or_eq_true_iff.mpr
        left
        rw [hsu]
        simp [h]
      · apply Bool.or_eq_true_iff.mpr
        right
        rw [h]
        simp
    · intro u hu t hsub hne hmatch hskip
      refine hmemloop u hu _ ?_
      unfold loopEffect
      rw [hsub]
      dsimp only
      rw [if_neg hne, if_pos (by simpa using hmatch), if_neg ?_]
      · simp
      · intro hor
        rw [hsu] at hor
        rcases Bool.or_eq_true_iff.mp hor with h | h
        · have hsu' : w.userId = u.userId := by simpa using h
          exact hskip (Or.inl hsu'.symm)
        · refine hskip (Or.inr ?_)
          cases ho : Option.map (fun x => x.1) s.firstCorrectUser with
          | none => rw [ho] at h; simp at h
          | some v =>
            rw [ho] at h
            have hv : v = u.userId := by simpa using h
            rw [hv]
    · intro u hu t hsub hne hmatch
      refine hmemloop u hu _ ?_
      unfold loopEffect
      rw [hsub]
      dsimp only
      rw [if_neg hne, if_neg (by simpa using hmatch)]
      simp
  · have hwfc : w.userId = fc.1 := by simpa using List.find?_some hwu
    have heff := emitResults_fc_effects s db now w fc q d hq hans hsu hfc hwu hdb
    have hwinmem : Effect.emitTo w.socketId (.quizWinner
          ⟨w.userId, w.username, q.reward_amount, d.exp + 1⟩ s.currentRound q.answer)
        ∈ (emitResults s db now).effects := by
      rw [heff]
      simp
    have hmemloop : ∀ u ∈ s.triviaUsers, ∀ x,
        x ∈ loopEffect s.currentRound q.answer
              (some ⟨w.userId, w.username, q.reward_amount, d.exp + 1⟩)
              ((s.triviaUsers.find? (fun v => v.userId == SPECIAL_USER_ID)).map (·.userId))
              (s.firstCorrectUser.map (·.1)) s.submissions u →
        x ∈ (emitResults s db now).effects := by
      intro u hu x hx
      rw [hsu] at hx
      rw [heff]
      refine List.mem_append_left _ (List.mem_append_right _ (List.mem_append_left _ ?_))
      refine List.mem_flatMap.mpr ⟨(fun v =>
        if v.userId == w.userId then { v with exp := d.exp + 1 } else v) u,
        List.mem_map_of_mem _ hu, ?_⟩
      rw [loopEffect_exp]
      exact hx
    refine ⟨?_, hwinmem, ?_, ?_, ?_, ?_⟩
    · rw [heff, ledgerOps_append, ledgerOps_append, ledgerOps_append,
        ledgerOps_flatMap_loop]
      split <;> rfl
    · intro u hu hsub
      refine hmemloop u hu _ ?_
      unfold loopEffect
      rcases hsub with h | h <;> rw [h] <;> simp
    · intro u hu t hsub hne hmatch hskip
      unfold loopEffect
      rw [hsub]
      dsimp only
      rw [if_neg hne]
      rw [if_pos (by simpa using hmatch)]
      rw [if_pos ?_]
      apply Bool.or_eq_true_iff.mpr
      right
      rcases hskip with h | h
      · rw [hfc]
        simp [h, hwfc]
      · rw [h]
        simp
    · intro u hu t hsub hne hmatch hskip
      refine hmemloop u hu _ ?_
      unfold loopEffect
      rw [hsub]
      dsimp only
      rw [if_neg hne, if_pos (by simpa using hmatch), if_neg ?_]
      · simp
      · intro hor
        rw [hsu, hfc] at hor
        have hfceq : fc.1 = u.userId := by simpa using hor
        exact hskip (Or.inr (by simp [hfc, hfceq]))
    · intro u hu t hsub hne hmatch
      refine hmemloop u hu _ ?_
      unfold loopEffect
      rw [hsub]
      dsimp only
      rw [if_neg hne, if_neg (by simpa using hmatch)]
      simp

/-- Without the privileged account online, Bob's recorded first-correct
status makes him the winner: round 1 between Carol and Bob. -/
def stFC : GameState :=
  { initState with
    triviaUsers := [uCarol, uBob]
    currentRound := 1
    currentQuestion := some qX
    questionStartTime := some 1000
    roundTimeout := true
    resultTimeout := true
    submissions := [("u2", "paris".toList)]
    firstCorrectUser := some ("u2", "Bob") }

/-- C6 witness: with no privileged account present, first-correct Bob wins
round 1; the ledger sequence is credit 150, experience 1, mark `q1`
answered, in order. -/
theorem c6_resolution_order_witness :
    (stFC.currentQuestion = some qX ∧ qX.answer ≠ [] ∧
      stFC.triviaUsers.find? (fun u => u.userId == SPECIAL_USER_ID) = none ∧
      stFC.firstCorrectUser = some ("u2", "Bob") ∧
      stFC.triviaUsers.find? (fun u => u.userId == ("u2", "Bob").1) = some uBob ∧
      dbX.find? (fun u => u.uid == uBob.userId) = some ⟨"u2", 5, 0, 0⟩) ∧
    ledgerOps (emitResults stFC dbX 20000).effects
      = [Effect.creditBalance "u2" 150,
         Effect.setExp "u2" 1,
         Effect.markAnswered "q1" "u2"] :=
  ⟨⟨rfl, by decide, by decide, rfl, by decide, by decide⟩,
    (c6_resolution_order_and_outcomes stFC dbX 20000 uBob qX ⟨"u2", 5, 0, 0⟩
      rfl (by decide)
      (Or.inr ⟨by decide, ("u2", "Bob"), rfl, by decide⟩) (by decide)).1⟩

/-- C6 counterexample to the claim's outcome partition: in `stQ`, Bob's
recorded submission matches the canonical answer and Bob is not the winner
(Alice is), so the claim demands a correct-but-not-fastest event for Bob —
but the loop skips the recorded first-correct responder, so Bob receives no
outcome event at all; and Alice, the winner, has no recorded submission, so
besides the won event she also receives a no-response outcome event. -/
theorem c6_outcome_partition_counterexample :
    stQ.firstCorrectUser = some ("u2", "Bob") ∧
    (emitResults stQ dbX 20000).winnerInfo.map (·.userId) = some SPECIAL_USER_ID ∧
    ((emitResults stQ dbX 20000).effects.countP (fun e =>
      match e with
      | .emitTo tgt (.quizEnd _ _ _ _) => tgt == "s2"
      | _ => false)) = 0 ∧
    Effect.emitTo "s1" (.quizEnd 1 "Paris".toList MSG_NO_RESPONSE
        (some ⟨SPECIAL_USER_ID, "Alice", 150, 1⟩))
      ∈ (emitResults stQ dbX 20000).effects := by
  refine ⟨rfl, by decide, by decide, by decide⟩

/-! ### C10 — the privileged account's auto-answer at question start -/

theorem selectedWinnerUid_special (b : GameState) (su : OnlineUser)
    (h : b.triviaUsers.find? (fun u => u.userId == SPECIAL_USER_ID) = some su) :
    selectedWinnerUid b = some su.userId := by
  unfold selectedWinnerUid
  rw [h]

/-- C10: when a question starts with the hardcoded privileged account in the
trivia room and the difficulty is hard or medium — or easy with the drawn
`Math.random()` sample below 0.3 — that account is immediately recorded as
the first-correct responder, the resolution-delay timer is armed, the
submissions map holds nothing for it and no token-deduction call is made
(the emitted effects are exactly the question broadcasts); at resolution it
is then the selected winner. -/
theorem c10_special_auto_answer (s : GameState) (db : DB) (now : Nat)
    (q : Question) (rand : ℚ) (su : OnlineUser)
    (hstart : s.startingQuestion = false)
    (hlen : 2 ≤ s.triviaUsers.length)
    (hsu : s.triviaUsers.find? (fun u => u.userId == SPECIAL_USER_ID) = some su)
    (hdiff : jsLower q.difficulty = "hard".toList ∨
      jsLower q.difficulty = "medium".toList ∨
      (jsLower q.difficulty = "easy".toList ∧ rand < 3 / 10)) :
    (startNewQuestion s db now (some q) rand).state.firstCorrectUser
      = some (su.userId, su.username) ∧
    (startNewQuestion s db now (some q) rand).state.resultTimeout = true ∧
    getSubmission (startNewQuestion s db now (some q) rand).state.submissions su.userId
      = none ∧
    (startNewQuestion s db now (some q) rand).effects
      = s.triviaUsers.map (fun u => Effect.emitTo u.socketId
          (.quizQuestion (s.currentRound + 1) q.qid QUESTION_DURATION)) ∧
    (startNewQuestion s db now (some q) rand).state.currentQuestion = some q ∧
    selectedWinnerUid (startNewQuestion s db now (some q) rand).state
      = some su.userId := by
  have hsa : (jsLower q.difficulty == "hard".toList
      || jsLower q.difficulty == "medium".toList
      || (jsLower q.difficulty == "easy".toList && decide (rand < 3 / 10))) = true := by
    rcases hdiff with h | h | ⟨h, hr⟩
    · simp [h]
    · simp [h]
    · simp [h, hr]
  unfold startNewQuestion
  rw [if_neg (by simp [hstart]), if_neg (by omega)]
  dsimp only
  rw [hsu]
  dsimp only
  rw [if_pos hsa]
  refine ⟨?_, ?_, ?_, rfl, ?_, ?_⟩
  · split <;> rfl
  · split
    · next h => exact h
    · rfl
  · split <;> rfl
  · split <;> rfl
  · refine selectedWinnerUid_special _ su ?_
    split <;> exact hsu

/-- C10 witness: Alice auto-answers a hard question at its start, with no
submission and no token call. -/
theorem c10_special_auto_answer_witness :
    (stQ2.startingQuestion = false ∧ 2 ≤ stQ2.triviaUsers.length ∧
      stQ.triviaUsers.find? (fun u => u.userId == SPECIAL_USER_ID) = some uAlice) ∧
    (startNewQuestion { initState with triviaUsers := [uAlice, uBob] } dbX 500 (some qX)
        (1 / 2)).state.firstCorrectUser = some (uAlice.userId, uAlice.username) :=
  ⟨⟨rfl, by decide, by decide⟩,
    (c10_special_auto_answer { initState with triviaUsers := [uAlice, uBob] } dbX 500 qX
      (1 / 2) uAlice rfl (by decide) (by decide) (Or.inl (by decide))).1⟩

/-! ### C7 — time-left synchronisation for mid-question joiners -/

/-- C7 (amended): a participant joining (or re-syncing on `user:join`) while
a question is active receives the question payload with
`timeLeft = max (duration − elapsed-whole-seconds) 0` — the countdown is
never restarted — and the full original duration is delivered only when
zero whole seconds have elapsed since the question start (a join within the
first second); whenever at least one whole second has elapsed, the
delivered `timeLeft` is strictly below the duration. -/
theorem c7_timeleft_sync (s : GameState) (db : DB)
    (uid uname sockId : String) (now : Nat) (q : Question) (t0 : Nat)
    (hq : s.currentQuestion = some q) (ht : s.questionStartTime = some t0) :
    (Effect.emitTo sockId (.quizQuestion s.currentRound q.qid
        (max (QUESTION_DURATION - elapsedSec now t0) 0))
      ∈ (roomJoinGeneral s db uid uname sockId now).effects) ∧
    (s.triviaUsers.any (fun u => u.userId == uid) = true →
      Effect.emitTo sockId (.quizQuestion s.currentRound q.qid
          (max (QUESTION_DURATION - elapsedSec now t0) 0))
        ∈ (userJoin s db uid uname sockId now).effects) ∧
    (1 ≤ elapsedSec now t0 →
      max (QUESTION_DURATION - elapsedSec now t0) 0 < QUESTION_DURATION) := by
  refine ⟨?_, ?_, ?_⟩
  · unfold roomJoinGeneral
    dsimp only [startWaitingPeriod]
    split
    all_goals split
    all_goals
      refine List.mem_append_right _ ?_
    all_goals rw [hq, ht]
    all_goals simp
  · intro hin
    unfold userJoin
    dsimp only
    split
    all_goals dsimp only
    all_goals rw [hq, ht]
    all_goals simp
  · intro h1
    have : QUESTION_DURATION - elapsedSec now t0 < QUESTION_DURATION := by
      unfold QUESTION_DURATION at *
      omega
    omega

/-- C7 counterexample: Zed joins the trivia room 500 ms after the question
started; elapsed whole seconds = 0, so the delivered `timeLeft` equals the
full original duration, contradicting "never the full original duration". -/
theorem c7_full_duration_counterexample :
    QUESTION_DURATION = 30 ∧
    Effect.emitTo "s9" (.quizQuestion 1 "q1" QUESTION_DURATION)
      ∈ (roomJoinGeneral stQ dbX "u9" "Zed" "s9" 1500).effects := by
  refine ⟨rfl, by decide⟩

/-- C7 witness: a join 4 s into the question receives `timeLeft = 26`,
strictly below the duration. -/
theorem c7_timeleft_sync_witness :
    (stQ.currentQuestion = some qX ∧ stQ.questionStartTime = some 1000 ∧
      1 ≤ elapsedSec 5000 1000) ∧
    Effect.emitTo "s9" (.quizQuestion stQ.currentRound qX.qid
        (max (QUESTION_DURATION - elapsedSec 5000 1000) 0))
      ∈ (roomJoinGeneral stQ dbX "u9" "Zed" "s9" 5000).effects ∧
    max (QUESTION_DURATION - elapsedSec 5000 1000) 0 < QUESTION_DURATION :=
  ⟨⟨rfl, rfl, by decide⟩,
    (c7_timeleft_sync stQ dbX "u9" "Zed" "s9" 5000 qX 1000 rfl rfl).1,
    (c7_timeleft_sync stQ dbX "u9" "Zed" "s9" 5000 qX 1000 rfl rfl).2.2 (by decide)⟩

/-! ### Projection lemmas for the transition relation (C8, C9) -/

theorem doReward_ok_proj (s : GameState) (db : DB) (w : OnlineUser) (q : Question) :
    ∀ s' db' effs wi, doReward s db w q = .ok (s', db', effs, wi) →
      s'.currentRound = s.currentRound ∧ s'.roundTimeout = s.roundTimeout ∧
      s'.waitTimeout = s.waitTimeout ∧ s'.resultTimeout = s.resultTimeout ∧
      s'.winnerDeclared = s.winnerDeclared ∧ s'.currentQuestion = s.currentQuestion := by
  unfold doReward
  cases hab : dbAddBalance db w.userId q.reward_amount with
  | mk ru db1 =>
    cases ru with
    | none =>
      intro s' db' effs wi h
      cases h
    | some ruDoc =>
      dsimp only
      cases hse : dbSetExp db1 w.userId (ruDoc.exp + 1) with
      | mk r2 db2 =>
        cases r2 with
        | none => intro s' db' effs wi h; cases h
        | some e2 =>
          dsimp only
          intro s' db' effs wi h
          injection h with h'
          injection h' with h1 h2
          rw [← h1]
          exact ⟨rfl, rfl, rfl, rfl, rfl, rfl⟩

theorem finishRound_round (s : GameState) (db : DB) (now : Nat)
    (effs : List Effect) (w : Option WinnerInfo) :
    (finishRound s db now effs w).state.currentRound = s.currentRound ∧
    (finishRound s db now effs w).state.waitTimeout
      = (if 2 ≤ s.triviaUsers.length then true else s.waitTimeout) := by
  unfold finishRound
  split
  · next h => rw [if_pos (show 2 ≤ s.triviaUsers.length from h)]; exact ⟨rfl, rfl⟩
  · next h => rw [if_neg (show ¬2 ≤ s.triviaUsers.length from h)]; exact ⟨rfl, rfl⟩

theorem emitBranch_round (s : GameState) (db : DB) (now : Nat) (q : Question)
    (sp : Option String) (w : OnlineUser) :
    (emitBranch s db now q sp (doReward s db w q)).state.currentRound
      = s.currentRound := by
  unfold emitBranch
  cases hdr : doReward s db w q with
  | error e => obtain ⟨db', effs⟩ := e; rfl
  | ok v =>
    obtain ⟨s1, db1, effs1, wi⟩ := v
    unfold emitTail
    rw [(finishRound_round _ _ _ _ _).1]
    exact (doReward_ok_proj s db w q s1 db1 effs1 wi hdr).1

theorem emitResults_round (s : GameState) (db : DB) (now : Nat) :
    (emitResults s db now).state.currentRound = s.currentRound := by
  unfold emitResults
  cases hq : s.currentQuestion with
  | none => rfl
  | some q =>
    dsimp only
    by_cases hans : q.answer = []
    · rw [if_pos hans]
    · rw [if_neg hans]
      cases hsu : s.triviaUsers.find? (fun u => u.userId == SPECIAL_USER_ID) with
      | some su => exact emitBranch_round s db now q (some su.userId) su
      | none =>
        cases hfc : s.firstCorrectUser with
        | none => exact (finishRound_round _ _ _ _ _).1
        | some fc =>
          dsimp only
          cases hwu : s.triviaUsers.find? (fun u => u.userId == fc.1) with
          | none => exact (finishRound_round _ _ _ _ _).1
          | some wu => exact emitBranch_round s db now q none wu

theorem startNewQuestion_proj (s : GameState) (db : DB) (now : Nat)
    (qOpt : Option Question) (rand : ℚ) :
    ((startNewQuestion s db now qOpt rand).state.currentRound = s.currentRound ∨
      (startNewQuestion s db now qOpt rand).state.currentRound = s.currentRound + 1) ∧
    (startNewQuestion s db now qOpt rand).state.waitTimeout = s.waitTimeout := by
  unfold startNewQuestion
  split
  · exact ⟨Or.inl rfl, rfl⟩
  · split
    · exact ⟨Or.inl rfl, rfl⟩
    · split
      · exact ⟨Or.inl rfl, rfl⟩
      · refine ⟨Or.inr ?_, ?_⟩ <;>
        · dsimp only
          split
          · split
            · split <;> rfl
            · rfl
          · rfl

/-- On a successful start (enough players, a question reserved, no re-entrant
call), the round number advances by exactly one. -/
theorem startNewQuestion_round_succ (s : GameState) (db : DB) (now : Nat)
    (q : Question) (rand : ℚ)
    (hstart : s.startingQuestion = false) (hlen : 2 ≤ s.triviaUsers.length) :
    (startNewQuestion s db now (some q) rand).state.currentRound
      = s.currentRound + 1 := by
  unfold startNewQuestion
  rw [if_neg (by simp [hstart]), if_neg (by omega)]
  dsimp only
  split
  · split
    · split <;> rfl
    · rfl
  · rfl

/-- On exhaustion (no question reserved), the round counter is unchanged and,
in a live room, the end-of-content event goes to every participant. -/
theorem startNewQuestion_exhausted (s : GameState) (db : DB) (now : Nat) (rand : ℚ) :
    (startNewQuestion s db now none rand).state.currentRound = s.currentRound ∧
    (s.startingQuestion = false → 2 ≤ s.triviaUsers.length →
      (startNewQuestion s db now none rand).effects
        = s.triviaUsers.map (fun u => Effect.emitTo u.socketId .quizEndNoQuestions)) := by
  constructor
  · unfold startNewQuestion
    split
    · rfl
    · split
      · rfl
      · rfl
  · intro hstart hlen
    unfold startNewQuestion
    rw [if_neg (by simp [hstart]), if_neg (by omega)]

theorem userJoin_proj (s : GameState) (db : DB) (uid uname sockId : String) (now : Nat) :
    (userJoin s db uid uname sockId now).state.currentRound = s.currentRound ∧
    (userJoin s db uid uname sockId now).state.roundTimeout = s.roundTimeout ∧
    (s.roundTimeout = true →
      (userJoin s db uid uname sockId now).state.waitTimeout = s.waitTimeout) := by
  unfold userJoin startWaitingPeriod
  dsimp only
  repeat' split
  all_goals
    refine ⟨rfl, rfl, fun hrt => ?_⟩
  all_goals
    first
    | rfl
    | simp_all only [Bool.and_eq_true, Bool.not_eq_true', not_true, decide_eq_true_eq]

theorem roomJoin_proj (s : GameState) (db : DB) (uid uname sockId : String) (now : Nat) :
    (roomJoinGeneral s db uid uname sockId now).state.currentRound = s.currentRound ∧
    (roomJoinGeneral s db uid uname sockId now).state.roundTimeout = s.roundTimeout ∧
    (s.roundTimeout = true →
      (roomJoinGeneral s db uid uname sockId now).state.waitTimeout = s.waitTimeout) := by
  unfold roomJoinGeneral startWaitingPeriod
  dsimp only
  repeat' split
  all_goals
    refine ⟨rfl, rfl, fun hrt => ?_⟩
  all_goals
    first
    | rfl
    | simp_all only [Bool.and_eq_true, Bool.not_eq_true', not_true, decide_eq_true_eq]

theorem handleAnswer_proj (s : GameState) (db : DB) (p : AnswerPayload)
    (sockId : String) (now : Nat) :
    (handleAnswer s db p sockId now).state.currentRound = s.currentRound ∧
    (handleAnswer s db p sockId now).state.roundTimeout = s.roundTimeout ∧
    (handleAnswer s db p sockId now).state.waitTimeout = s.waitTimeout := by
  unfold handleAnswer
  dsimp only
  repeat' split
  all_goals exact ⟨rfl, rfl, rfl⟩

theorem roomLeave_proj (s : GameState) (db : DB) (uid sockId : String) :
    (roomLeave s db uid sockId).state.currentRound = s.currentRound ∧
    (roomLeave s db uid sockId).state.roundTimeout = s.roundTimeout ∧
    (roomLeave s db uid sockId).state.waitTimeout = s.waitTimeout :=
  ⟨rfl, rfl, rfl⟩

theorem disconnectStart_proj (s : GameState) (db : DB) (sockId : String) :
    (disconnectStart s db sockId).state.currentRound = s.currentRound ∧
    (disconnectStart s db sockId).state.roundTimeout = s.roundTimeout ∧
    (disconnectStart s db sockId).state.waitTimeout = s.waitTimeout := by
  unfold disconnectStart
  repeat' split
  all_goals exact ⟨rfl, rfl, rfl⟩

theorem disconnectExpiry_proj (s : GameState) (db : DB) (uid : String) :
    (disconnectExpiry s db uid).state.currentRound = s.currentRound ∧
    ((disconnectExpiry s db uid).state.roundTimeout = false ∨
      ((disconnectExpiry s db uid).state.roundTimeout = s.roundTimeout ∧
        (disconnectExpiry s db uid).state.waitTimeout = s.waitTimeout)) := by
  unfold disconnectExpiry
  dsimp only
  repeat' split
  all_goals first
    | exact ⟨rfl, Or.inl rfl⟩
    | exact ⟨rfl, Or.inr ⟨rfl, rfl⟩⟩

theorem roundFire_proj (s : GameState) (db : DB) (now : Nat) :
    (roundFire s db now).state.currentRound = s.currentRound ∧
    ((roundFire s db now).state.roundTimeout = false ∨
      (roundFire s db now).state = s) := by
  unfold roundFire
  by_cases hrt : s.roundTimeout = true
  · rw [if_pos hrt]
    dsimp only
    by_cases hg : (!s.winnerDeclared && s.currentQuestion.isSome) = true
    · rw [if_pos hg]
      refine ⟨emitResults_round _ _ _, ?_⟩
      rcases (emitResults_credits { s with roundTimeout := false } db now).2 with h | h
      · exact Or.inl h.1
      · rw [h]
        exact Or.inl rfl
    · rw [if_neg hg]
      exact ⟨rfl, Or.inl rfl⟩
  · rw [if_neg hrt]
    exact ⟨rfl, Or.inr rfl⟩

theorem resultFire_proj (s : GameState) (db : DB) (now : Nat) :
    (resultFire s db now).state.currentRound = s.currentRound ∧
    ((resultFire s db now).state.roundTimeout = false ∨
      ((resultFire s db now).state.roundTimeout = s.roundTimeout ∧
        (resultFire s db now).state.waitTimeout = s.waitTimeout)) := by
  unfold resultFire
  by_cases hrt : s.resultTimeout = true
  · rw [if_pos hrt]
    dsimp only
    refine ⟨emitResults_round _ _ _, ?_⟩
    rcases (emitResults_credits { s with resultTimeout := false } db now).2 with h | h
    · exact Or.inl h.1
    · rw [h]
      exact Or.inr ⟨rfl, rfl⟩
  · rw [if_neg hrt]
    exact ⟨rfl, Or.inr ⟨rfl, rfl⟩⟩

theorem waitFire_proj (s : GameState) (db : DB) (now : Nat) (qOpt : Option Question)
    (rand : ℚ) :
    ((waitFire s db now qOpt rand).state.currentRound = s.currentRound ∨
      (waitFire s db now qOpt rand).state.currentRound = s.currentRound + 1) ∧
    ((waitFire s db now qOpt rand).state.waitTimeout = false ∨
      (waitFire s db now qOpt rand).state = s) := by
  unfold waitFire
  by_cases hwt : s.waitTimeout = true
  · rw [if_pos hwt]
    refine ⟨(startNewQuestion_proj _ _ _ _ _).1, Or.inl ?_⟩
    rw [(startNewQuestion_proj _ _ _ _ _).2]
  · rw [if_neg hwt]
    exact ⟨Or.inl rfl, Or.inr rfl⟩

/-! ### C8 — round-number discipline -/

/-- C8: the round counter starts at 0; a successful question start advances
it by exactly one; exhaustion (no reservable question) leaves it unchanged
while the end-of-content event is delivered to the room; and no transition
of the machine ever changes it other than by that single increment — so
round numbers are non-repeating and strictly increasing across question
starts. -/
theorem c8_round_numbering :
    initState.currentRound = 0 ∧
    (∀ (s : GameState) (db : DB) (now : Nat) (q : Question) (rand : ℚ),
      s.startingQuestion = false → 2 ≤ s.triviaUsers.length →
      (startNewQuestion s db now (some q) rand).state.currentRound
        = s.currentRound + 1) ∧
    (∀ (s : GameState) (db : DB) (now : Nat) (rand : ℚ),
      (startNewQuestion s db now none rand).state.currentRound = s.currentRound ∧
      (s.startingQuestion = false → 2 ≤ s.triviaUsers.length →
        (startNewQuestion s db now none rand).effects
          = s.triviaUsers.map (fun u => Effect.emitTo u.socketId .quizEndNoQuestions))) ∧
    (∀ a b, Step a b →
      b.1.currentRound = a.1.currentRound ∨
        b.1.currentRound = a.1.currentRound + 1) := by
  refine ⟨rfl, startNewQuestion_round_succ, startNewQuestion_exhausted, ?_⟩
  intro a b hstep
  cases hstep with
  | userJoin s db uid uname sockId now =>
    exact Or.inl (userJoin_proj s db uid uname sockId now).1
  | roomJoin s db uid uname sockId now =>
    exact Or.inl (roomJoin_proj s db uid uname sockId now).1
  | roomLeave s db uid sockId =>
    exact Or.inl (roomLeave_proj s db uid sockId).1
  | answer s db p sockId now =>
    exact Or.inl (handleAnswer_proj s db p sockId now).1
  | disconnectStart s db sockId =>
    exact Or.inl (disconnectStart_proj s db sockId).1
  | disconnectExpiry s db uid =>
    exact Or.inl (disconnectExpiry_proj s db uid).1
  | waitFire s db now qOpt rand =>
    exact (waitFire_proj s db now qOpt rand).1
  | roundFire s db now =>
    exact Or.inl (roundFire_proj s db now).1
  | resultFire s db now =>
    exact Or.inl (resultFire_proj s db now).1

/-- C8 witness: from a two-player idle room at round 0, a successful start
yields round 1; a `none` draw leaves round 0 and notifies both players. -/
theorem c8_round_numbering_witness :
    (stQ2.startingQuestion = false ∧ 2 ≤ stQ2.triviaUsers.length) ∧
    (startNewQuestion { initState with triviaUsers := [uCarol, uBob] } dbX 500 (some qX)
      (1 / 2)).state.currentRound = 1 ∧
    (startNewQuestion { initState with triviaUsers := [uCarol, uBob] } dbX 500 none
      (1 / 2)).effects
      = [Effect.emitTo "s3" .quizEndNoQuestions, Effect.emitTo "s2" .quizEndNoQuestions] :=
  ⟨⟨rfl, by decide⟩,
    c8_round_numbering.2.1 { initState with triviaUsers := [uCarol, uBob] } dbX 500 qX
      (1 / 2) rfl (by decide),
    by
      rw [(c8_round_numbering.2.2.1 { initState with triviaUsers := [uCarol, uBob] } dbX
        500 (1 / 2)).2 rfl (by decide)]
      decide⟩

/-! ### C9 — timer exclusion invariant -/

/-- C9 (amended): over every state reachable by the serialized relation —
handlers and callbacks atomic, nothing interleaved at the awaits — the
question-deadline timer and the wait-deadline timer are never both
pending.  Each timer kind is a single slot (`roundTimeout`, `waitTimeout`,
`resultTimeout`), mirroring the single variables of the source that are
cleared before re-arming, so at most one timer of each kind can be pending
at any time by construction.  At the await suspension points the exclusion
fails — see the counterexample below. -/
theorem c9_timer_exclusion (x : GameState × DB) (h : Reachable x) :
    ¬(x.1.roundTimeout = true ∧ x.1.waitTimeout = true) := by
  induction h with
  | init db =>
    rintro ⟨h1, -⟩
    cases h1
  | step hprev hstep ih =>
    cases hstep with
    | userJoin s db uid uname sockId now =>
      obtain ⟨-, hr, hw⟩ := userJoin_proj s db uid uname sockId now
      rintro ⟨h1, h2⟩
      rw [hr] at h1
      rw [hw h1] at h2
      exact ih ⟨h1, h2⟩
    | roomJoin s db uid uname sockId now =>
      obtain ⟨-, hr, hw⟩ := roomJoin_proj s db uid uname sockId now
      rintro ⟨h1, h2⟩
      rw [hr] at h1
      rw [hw h1] at h2
      exact ih ⟨h1, h2⟩
    | roomLeave s db uid sockId =>
      obtain ⟨-, hr, hw⟩ := roomLeave_proj s db uid sockId
      rintro ⟨h1, h2⟩
      exact ih ⟨hr ▸ h1, hw ▸ h2⟩
    | answer s db p sockId now =>
      obtain ⟨-, hr, hw⟩ := handleAnswer_proj s db p sockId now
      rintro ⟨h1, h2⟩
      exact ih ⟨hr ▸ h1, hw ▸ h2⟩
    | disconnectStart s db sockId =>
      obtain ⟨-, hr, hw⟩ := disconnectStart_proj s db sockId
      rintro ⟨h1, h2⟩
      exact ih ⟨hr ▸ h1, hw ▸ h2⟩
    | disconnectExpiry s db uid =>
      obtain ⟨-, hd⟩ := disconnectExpiry_proj s db uid
      rintro ⟨h1, h2⟩
      rcases hd with hd | ⟨hr, hw⟩
      · rw [hd] at h1
        cases h1
      · exact ih ⟨hr ▸ h1, hw ▸ h2⟩
    | waitFire s db now qOpt rand =>
      obtain ⟨-, hd⟩ := waitFire_proj s db now qOpt rand
      rintro ⟨h1, h2⟩
      rcases hd with hd | hd
      · rw [hd] at h2
        cases h2
      · rw [hd] at h1 h2
        exact ih ⟨h1, h2⟩
    | roundFire s db now =>
      obtain ⟨-, hd⟩ := roundFire_proj s db now
      rintro ⟨h1, h2⟩
      rcases hd with hd | hd
      · rw [hd] at h1
        cases h1
      · rw [hd] at h1 h2
        exact ih ⟨h1, h2⟩
    | resultFire s db now =>
      obtain ⟨-, hd⟩ := resultFire_proj s db now
      rintro ⟨h1, h2⟩
      rcases hd with hd | ⟨hr, hw⟩
      · rw [hd] at h1
        cases h1
      · exact ih ⟨hr ▸ h1, hw ▸ h2⟩

/-- C9 witness: the module-load state is reachable and satisfies the
exclusion. -/
theorem c9_timer_exclusion_witness :
    Reachable (initState, ([] : DB)) ∧
    ¬(initState.roundTimeout = true ∧ initState.waitTimeout = true) :=
  ⟨Reachable.init [], c9_timer_exclusion (initState, ([] : DB)) (Reachable.init [])⟩

/-- Idle two-player room with the wait deadline pending and about to fire. -/
def c9Wait : GameState :=
  { initState with triviaUsers := [uCarol, uBob],
                   waitTimeout := true, waitStartTime := some 0 }

/-- The wait-deadline callback fires — clearing its handle and the wait
start instant — and runs `startNewQuestion` up to the question-reservation
await. -/
def c9Enter : GameState × List Effect × Bool :=
  startNewQuestionEnter { c9Wait with waitTimeout := false, waitStartTime := none }

/-- While the start is suspended at the await, Dave's `room:join` is
processed: it sees neither deadline pending and no current question, so it
re-arms the wait deadline. -/
def c9Join : Out := roomJoinGeneral c9Enter.1 dbX "u4" "Dave" "s4" 31000

/-- The suspended start resumes with the reserved question and arms the
question deadline. -/
def c9Resume : Out :=
  startNewQuestionResume c9Join.state c9Join.db 31500 (some qX) (1 / 2)

/-- C9 counterexample to the exclusion under the source's suspension-point
semantics: `startNewQuestion` suspends at the awaited question reservation
with both deadlines cleared and no current question, a `room:join`
interleaved there re-arms the wait deadline, and the resumed start then
arms the question deadline — leaving both deadlines pending
simultaneously. -/
theorem c9_both_deadlines_counterexample :
    c9Enter.2.2 = true ∧
    c9Enter.1.waitTimeout = false ∧
    c9Enter.1.roundTimeout = false ∧
    c9Enter.1.currentQuestion = none ∧
    c9Join.state.waitTimeout = true ∧
    c9Resume.state.roundTimeout = true ∧
    c9Resume.state.waitTimeout = true := by decide

end Trivia
